import Mathlib

/-!
# Verification of the HCS-LAB profile-to-code pipeline

A shallow embedding, in Lean 4, of the core of the HCS-LAB Go repository:
input normalization (`internal/hcs/codec_u7.go`), the plain-text U3 codec
(`internal/hcs/codec_u3.go`), the U4 base64/JSON codec
(`internal/hcs/codec_u4.go`), the Chinese Four-Pillars calendar engine
(`internal/hcs/chinese.go`), the fusion engine, the canonicalizer, the
generator pipeline, and the hash/signature engine (SHA-256, HMAC-SHA3-256,
BLAKE3).

Modelling conventions:
* Go `float64` values carried in profiles are modelled as exact rationals
  (`ℚ`).  Where a claim is explicitly about IEEE-754 double-precision
  behaviour (the rounding of `clampAndRound`), a faithful bit-level model
  of binary64 round-to-nearest-even arithmetic over integer pairs is used
  (`F64` below); all inputs stay in the normal range, so neither
  subnormals nor overflow are modelled.
* Go `int` is modelled as `ℤ` (all values in the programs stay far below
  2^63, so wrap-around never occurs).
* Go strings are modelled as Lean `String` (sequences of Unicode scalar
  values); byte-level operations (hashing, base64) go through an explicit
  UTF-8 encoder.
* Go maps keyed by the five Chinese element names are modelled as a
  five-field structure; the keys are fixed in all reachable code.
-/

namespace HCS

/-! ## A bit-level model of IEEE-754 binary64 (normal range)

`F64` represents the double with value `m * 2 ^ e` (`|m| < 2 ^ 53`).
`f64ofFrac n d e0` rounds the real number `(n / d) * 2 ^ e0` to the
nearest representable double, ties to even — the rounding performed by
the Go compiler for literals and by the hardware for every arithmetic
operation.  All arithmetic is over `ℤ`/`ℕ` so that `decide` can evaluate
it. -/

structure F64 where
  m : ℤ
  e : ℤ
  deriving DecidableEq, Repr

/-- Fuel-driven floor of log₂ (fuel version so the kernel can reduce it). -/
def natLog2Fuel : ℕ → ℕ → ℕ
  | 0, _ => 0
  | fuel+1, n => if n ≤ 1 then 0 else natLog2Fuel fuel (n / 2) + 1

/-- `natLog2 n` is `⌊log₂ n⌋` for `n ≥ 1` (and `0` at `0`). -/
def natLog2 (n : ℕ) : ℕ := natLog2Fuel n n

/-- Round the fraction `num / den` (`den ≠ 0`) to the nearest natural
number, ties to even. -/
def roundHalfEvenFrac (num den : ℕ) : ℕ :=
  let q := num / den
  let r := num % den
  if 2 * r < den then q
  else if 2 * r > den then q + 1
  else if q % 2 = 0 then q else q + 1

/-- The scaled numerator/denominator pair representing `(na * 2 ^ sh) / da`. -/
def scaledFrac (na da : ℕ) (sh : ℤ) : ℕ × ℕ :=
  if 0 ≤ sh then (na * 2 ^ sh.toNat, da) else (na, da * 2 ^ (-sh).toNat)

/-- Choose the shift `sh` such that `na * 2 ^ sh / da ∈ [2^52, 2^53)`.
The initial guess from the bit lengths is off by at most one. -/
def pickShift (na da : ℕ) : ℤ :=
  let guess : ℤ := 52 - ((natLog2 na : ℤ) - (natLog2 da : ℤ))
  let p := scaledFrac na da guess
  if p.1 < 2 ^ 52 * p.2 then guess + 1
  else if 2 ^ 53 * p.2 ≤ p.1 then guess - 1
  else guess

/-- Round the real number `(n / d) * 2 ^ e0` (with `d > 0`) to the nearest
binary64 value, ties to even.  Valid on the normal range (no subnormals,
no overflow); every number appearing in the verified claims is normal. -/
def f64ofFrac (n d : ℤ) (e0 : ℤ) : F64 :=
  if n = 0 then ⟨0, 0⟩ else
  let na := n.natAbs
  let da := d.natAbs
  let sh := pickShift na da
  let p := scaledFrac na da sh
  let m1 := roundHalfEvenFrac p.1 p.2
  let mag : F64 := if m1 = 2 ^ 53 then ⟨2 ^ 52, e0 - sh + 1⟩ else ⟨m1, e0 - sh⟩
  if n < 0 then ⟨-mag.m, mag.e⟩ else mag

/-- The double obtained by parsing the decimal literal `n / d`
(Go compiles floating literals to the nearest double). -/
def f64Lit (n d : ℤ) : F64 := f64ofFrac n d 0

/-- IEEE-754 binary64 multiplication: multiply exactly, then round the
product to the nearest double (ties to even). -/
def fpMul (a b : F64) : F64 :=
  if a.m = 0 ∨ b.m = 0 then ⟨0, 0⟩ else f64ofFrac (a.m * b.m) 1 (a.e + b.e)

/-- Is the value of `a` strictly greater than `1`? (exact comparison). -/
def fpGtOne (a : F64) : Bool :=
  if 0 ≤ a.e then 1 < a.m * 2 ^ a.e.toNat else 2 ^ (-a.e).toNat < a.m

/-- `int(math.Round x)`: round half away from zero to an integer.
Since the doubles involved are exact and the rounded result is exactly
representable, the Go float-level computation agrees with this exact
rounding of the double's value. -/
def fpRoundAway (a : F64) : ℤ :=
  if 0 ≤ a.e then a.m * 2 ^ a.e.toNat
  else
    let d : ℤ := 2 ^ (-a.e).toNat
    if 0 ≤ a.m then Int.fdiv (2 * a.m + d) (2 * d)
    else -(Int.fdiv (2 * (-a.m) + d) (2 * d))

/-- `clampAndRound` from `internal/hcs/codec_u7.go`, modelled at the
IEEE-754 double level: clamp the double to [0,1], multiply by 100 in
double arithmetic, round half away from zero, convert to `int`. -/
def fpClampAndRound (value : F64) : ℤ :=
  let v1 := if value.m < 0 then (⟨0, 0⟩ : F64) else value
  let v2 := if fpGtOne v1 then f64Lit 1 1 else v1
  fpRoundAway (fpMul v2 (f64Lit 100 1))

/-! ## Normalization over exact rationals

The rest of the pipeline carries profile ratios as exact rationals.
`clampAndRound` below is the rational-level translation of the same Go
function; its final line computes `round(v * 100)` (half away from zero,
`v ∈ [0,1]` so the value is nonnegative) by integer arithmetic on the
reduced numerator/denominator, so that the kernel can evaluate it. -/

/-- `clampAndRound` from `internal/hcs/codec_u7.go` over exact rationals:
clamp `value` to [0,1] and return `round(value * 100)` rounding half away
from zero.  `⌊(200 n + d) / (2 d)⌋ = ⌊100 v + 1/2⌋` for `v = n / d ≥ 0`. -/
def clampAndRound (value : ℚ) : ℤ :=
  let v := if value < 0 then 0 else value
  let v := if v > 1 then 1 else v
  (200 * v.num + (v.den : ℤ)) / ((2 * v.den : ℕ) : ℤ)

theorem clampAndRound_eq_round (q : ℚ) (h0 : 0 ≤ q) (h1 : q ≤ 1) :
    clampAndRound q = round (q * 100) := by
  have hq0 : ¬ q < 0 := not_lt.mpr h0
  have hq1 : ¬ q > 1 := not_lt.mpr h1
  have hden : (0:ℚ) < (q.den : ℚ) := by exact_mod_cast q.pos
  rw [clampAndRound]
  simp only [hq0, hq1, if_false]
  rw [round_eq, ← Rat.floor_intCast_div_natCast (200 * q.num + (q.den : ℤ)) (2 * q.den)]
  congr 1
  have hnum : (q.num : ℚ) = q * (q.den : ℚ) :=
    (div_eq_iff hden.ne').mp (Rat.num_div_den q)
  push_cast
  rw [div_eq_iff (by positivity), hnum]
  ring

/-! ## Letter mappings and the U3 codec (`internal/hcs/codec_u3.go`,
`internal/hcs/codec_u7.go`) -/

/-- `mapElementToLetter` from `internal/hcs/codec_u7.go`. -/
def mapElementToLetter (element : String) : String :=
  if element = "Earth" then "E"
  else if element = "Air" then "A"
  else if element = "Water" then "W"
  else if element = "Fire" then "F"
  else "E"

/-- `mapPaceToLetter` from `internal/hcs/codec_u7.go`. -/
def mapPaceToLetter (pace : String) : String :=
  if pace = "balanced" then "B"
  else if pace = "fast" then "F"
  else if pace = "slow" then "S"
  else "B"

/-- `mapStructureToLetter` from `internal/hcs/codec_u7.go`. -/
def mapStructureToLetter (s : String) : String :=
  if s = "low" then "L"
  else if s = "medium" then "M"
  else if s = "high" then "H"
  else "M"

/-- `mapToneToLetter` from `internal/hcs/codec_u7.go`. -/
def mapToneToLetter (tone : String) : String :=
  if tone = "warm" then "W"
  else if tone = "neutral" then "N"
  else if tone = "sharp" then "S"
  else if tone = "precise" then "P"
  else "N"

/-- Decimal digits of a natural number (fuel version, kernel-reducible). -/
def natDecAux : ℕ → ℕ → List Char
  | 0, _ => []
  | fuel+1, n =>
    if n = 0 then []
    else natDecAux fuel (n / 10) ++ [Char.ofNat (48 + n % 10)]

/-- Decimal string of a natural number. -/
def natDec (n : ℕ) : String := if n = 0 then "0" else ⟨natDecAux n n⟩

/-- Decimal string of an integer (Go `%d`). -/
def intDec (i : ℤ) : String := (if i < 0 then "-" else "") ++ natDec i.natAbs

/-- Go `fmt` `%02d`: decimal, zero-padded on the left to width 2
(the sign counts toward the width). -/
def pad2 (n : ℤ) : String :=
  let sign := if n < 0 then "-" else ""
  let mag := natDec n.natAbs
  if 2 ≤ sign.length + mag.length then sign ++ mag
  else sign ++ "0" ++ mag

/-! Profile data model (`types.go` in package `hcs`). -/

/-- `ModalBalance`. -/
structure ModalBalance where
  Cardinal : ℚ
  Fixed : ℚ
  Mutable : ℚ
  deriving DecidableEq, Repr

/-- `CognitionProfile`. -/
structure CognitionProfile where
  Fluid : ℚ
  Crystallized : ℚ
  Verbal : ℚ
  Strategic : ℚ
  Creative : ℚ
  deriving DecidableEq, Repr

/-- `InteractionPreferences`. -/
structure InteractionPreferences where
  Pace : String
  Structure : String
  Tone : String
  deriving DecidableEq, Repr

/-- `BirthInfo` from `internal/hcs/chinese.go`. -/
structure BirthInfo where
  Year : ℤ
  Month : ℤ
  Day : ℤ
  Hour : ℤ
  Minute : ℤ
  Timezone : String
  deriving DecidableEq, Repr

/-- `InputProfile`. -/
structure InputProfile where
  DominantElement : String
  Modal : ModalBalance
  Cognition : CognitionProfile
  Interaction : InteractionPreferences
  BirthInfo : Option BirthInfo := none
  deriving DecidableEq, Repr

/-- `EncodeU3` from `internal/hcs/codec_u3.go`: assemble the segmented
plain-text code from the raw input profile and the CHIP string. -/
def EncodeU3 (inp : InputProfile) (chip : String) : String :=
  let elemSegment := "E:" ++ mapElementToLetter inp.DominantElement
  let modalSegment := "MOD:c" ++ pad2 (clampAndRound inp.Modal.Cardinal)
    ++ "f" ++ pad2 (clampAndRound inp.Modal.Fixed)
    ++ "m" ++ pad2 (clampAndRound inp.Modal.Mutable)
  let cogSegment := "COG:F" ++ pad2 (clampAndRound inp.Cognition.Fluid)
    ++ "C" ++ pad2 (clampAndRound inp.Cognition.Crystallized)
    ++ "V" ++ pad2 (clampAndRound inp.Cognition.Verbal)
    ++ "S" ++ pad2 (clampAndRound inp.Cognition.Strategic)
    ++ "Cr" ++ pad2 (clampAndRound inp.Cognition.Creative)
  let intSegment := "INT:PB=" ++ mapPaceToLetter inp.Interaction.Pace
    ++ ",SM=" ++ mapStructureToLetter inp.Interaction.Structure
    ++ ",TN=" ++ mapToneToLetter inp.Interaction.Tone
  let chipSegment := "CHIP:" ++ chip
  "HCS-U3|" ++ elemSegment ++ "|" ++ modalSegment ++ "|" ++ cogSegment
    ++ "|" ++ intSegment ++ "|" ++ chipSegment

/-- The input profile used by the repository's tests
(`tests/codec_u3_test.go`): Air, modal (0.31, 0.23, 0.46), cognition
(0.52, 0.13, 0.53, 0.15, 0.33), interaction (balanced, medium, precise). -/
def testInputProfile : InputProfile where
  DominantElement := "Air"
  Modal := ⟨mkRat 31 100, mkRat 23 100, mkRat 46 100⟩
  Cognition := ⟨mkRat 52 100, mkRat 13 100, mkRat 53 100, mkRat 15 100, mkRat 33 100⟩
  Interaction := ⟨"balanced", "medium", "precise"⟩

set_option maxRecDepth 200000

/-- Claim C1: for the test input profile (Air, modal .31/.23/.46, cognition
.52/.13/.53/.15/.33, interaction balanced/medium/precise) and chip
"b04edb83f10e", `EncodeU3` returns exactly the claimed string.  The second
conjunct checks that on each of the eight ratio literals the bit-level
IEEE-754 model of `clampAndRound` agrees with the exact-rational model used
inside `EncodeU3`, so the result is insensitive to the float idealization. -/
theorem claim_C1_encodeU3_test_vector :
    EncodeU3 testInputProfile "b04edb83f10e" =
      "HCS-U3|E:A|MOD:c31f23m46|COG:F52C13V53S15Cr33|INT:PB=B,SM=M,TN=P|CHIP:b04edb83f10e"
    ∧ ([(31:ℤ), 23, 46, 52, 13, 53, 15, 33].all fun n =>
        fpClampAndRound (f64Lit n 100) = clampAndRound (mkRat n 100)) := by
  constructor
  · decide
  · decide

/-- Claim C2: on the bit-level IEEE-754 binary64 model, the normalization
function (clamp to [0,1], then round(x*100) half away from zero, as in Go's
`clampAndRound`) maps 0.314 to 31, 0.315 to 32, 1.0 to 100 and -0.5 to 0.
(`f64Lit n d` is the double nearest to n/d, as produced by the Go parser.) -/
theorem claim_C2_clampAndRound_ieee_values :
    fpClampAndRound (f64Lit 314 1000) = 31 ∧
    fpClampAndRound (f64Lit 315 1000) = 32 ∧
    fpClampAndRound (f64Lit 1 1) = 100 ∧
    fpClampAndRound (f64Lit (-1) 2) = 0 := by
  refine ⟨by decide, by decide, by decide, by decide⟩

/-! ## The Chinese Four-Pillars engine (`internal/hcs/chinese.go`) -/

/-- The five Chinese elements.  In the Go source these are the strings
"Wood", "Fire", "Earth", "Metal", "Water"; the fixed tables only ever
contain these five values, so they are modelled as an enumeration. -/
inductive Element where
  | Wood | Fire | Earth | Metal | Water
  deriving DecidableEq, Repr

/-- The element's name as it appears in the Go source. -/
def Element.name : Element → String
  | .Wood => "Wood"
  | .Fire => "Fire"
  | .Earth => "Earth"
  | .Metal => "Metal"
  | .Water => "Water"

/-- One entry of the `HeavenlyStems` table. -/
structure StemEntry where
  Name : String
  Element : Element
  YinYang : String
  deriving DecidableEq, Repr

/-- One entry of the `EarthlyBranches` table. -/
structure BranchEntry where
  Name : String
  Element : Element
  YinYang : String
  Animal : String
  deriving DecidableEq, Repr

/-- `HeavenlyStems`: the fixed table of 10 Heavenly Stems. -/
def HeavenlyStems : List StemEntry :=
  [⟨"Jia", .Wood, "Yang"⟩, ⟨"Yi", .Wood, "Yin"⟩,
   ⟨"Bing", .Fire, "Yang"⟩, ⟨"Ding", .Fire, "Yin"⟩,
   ⟨"Wu", .Earth, "Yang"⟩, ⟨"Ji", .Earth, "Yin"⟩,
   ⟨"Geng", .Metal, "Yang"⟩, ⟨"Xin", .Metal, "Yin"⟩,
   ⟨"Ren", .Water, "Yang"⟩, ⟨"Gui", .Water, "Yin"⟩]

/-- `EarthlyBranches`: the fixed table of 12 Earthly Branches. -/
def EarthlyBranches : List BranchEntry :=
  [⟨"Zi", .Water, "Yang", "Rat"⟩, ⟨"Chou", .Earth, "Yin", "Ox"⟩,
   ⟨"Yin", .Wood, "Yang", "Tiger"⟩, ⟨"Mao", .Wood, "Yin", "Rabbit"⟩,
   ⟨"Chen", .Earth, "Yang", "Dragon"⟩, ⟨"Si", .Fire, "Yin", "Snake"⟩,
   ⟨"Wu", .Fire, "Yang", "Horse"⟩, ⟨"Wei", .Earth, "Yin", "Goat"⟩,
   ⟨"Shen", .Metal, "Yang", "Monkey"⟩, ⟨"You", .Metal, "Yin", "Rooster"⟩,
   ⟨"Xu", .Earth, "Yang", "Dog"⟩, ⟨"Hai", .Water, "Yin", "Pig"⟩]

/-- `MonthBranchMapping`: month number (January first) to branch index. -/
def MonthBranchMapping : List ℤ := [2, 3, 4, 5, 6, 7, 8, 9, 10, 11, 0, 1]

/-- Table lookup `HeavenlyStems[i]`.  All reachable indices are in range;
out-of-range (which would panic in Go) falls back to the first entry. -/
def stemAt (i : ℤ) : StemEntry := HeavenlyStems.getD i.toNat ⟨"Jia", .Wood, "Yang"⟩

/-- Table lookup `EarthlyBranches[i]`; same in-range convention. -/
def branchAt (i : ℤ) : BranchEntry := EarthlyBranches.getD i.toNat ⟨"Zi", .Water, "Yang", "Rat"⟩

/-- `Pillar` from `chinese.go`. -/
structure Pillar where
  Stem : String
  Branch : String
  StemIndex : ℤ
  BranchIndex : ℤ
  deriving DecidableEq, Repr

/-- `Pillar.PillarToString`. -/
def Pillar.PillarToString (p : Pillar) : String := p.Stem ++ "-" ++ p.Branch

/-- `ComputeYearPillar`: 60-cycle offset from the Jia-Zi year 1924.
Go's `%` truncates toward zero, hence the explicit negative fix-up. -/
def ComputeYearPillar (year : ℤ) : Pillar :=
  let cycleYear := year - 1924
  let s := Int.tmod cycleYear 10
  let stemIndex := if s < 0 then s + 10 else s
  let b := Int.tmod cycleYear 12
  let branchIndex := if b < 0 then b + 12 else b
  ⟨(stemAt stemIndex).Name, (branchAt branchIndex).Name, stemIndex, branchIndex⟩

/-- Days since 1970-01-01 of the Gregorian date y-m-d (valid for month in
1..12, any day value; standard civil-calendar conversion).  This is the
day count Go's `time.Date`/`Sub` arithmetic produces for UTC midnight. -/
def daysFromCivil (y m d : ℤ) : ℤ :=
  let y1 := if m ≤ 2 then y - 1 else y
  let era := Int.fdiv y1 400
  let yoe := y1 - era * 400
  let mp := Int.emod (m + 9) 12
  let doy := (153 * mp + 2) / 5 + d - 1
  let doe := yoe * 365 + yoe / 4 - yoe / 100 + doy
  era * 146097 + doe - 719468

/-- Inverse of `daysFromCivil`: the Gregorian date of a day count. -/
def civilFromDays (z0 : ℤ) : ℤ × ℤ × ℤ :=
  let z := z0 + 719468
  let era := Int.fdiv z 146097
  let doe := z - era * 146097
  let yoe := (doe - doe / 1460 + doe / 36524 - doe / 146096) / 365
  let y := yoe + era * 400
  let doy := doe - (365 * yoe + yoe / 4 - yoe / 100)
  let mp := (5 * doy + 2) / 153
  let d := doy - (153 * mp + 2) / 5 + 1
  let m := mp + (if mp < 10 then 3 else -9)
  (if m ≤ 2 then y + 1 else y, m, d)

/-- Go's `time.Date` component normalization for a (y, m, d) triple with
m in 1..12 and arbitrary day: roll an out-of-range day over into the
following months (e.g. February 31 becomes March 2/3). -/
def normalizeDate (y m d : ℤ) : ℤ × ℤ × ℤ :=
  civilFromDays (daysFromCivil y m 1 + (d - 1))

/-- `ComputeMonthPillar`. -/
def ComputeMonthPillar (year month _day : ℤ) : Pillar :=
  let yearPillar := ComputeYearPillar year
  let monthBranchIndex := MonthBranchMapping.getD (month - 1).toNat 0
  let monthStemIndex := Int.tmod (yearPillar.StemIndex * 2 + month) 10
  ⟨(stemAt monthStemIndex).Name, (branchAt monthBranchIndex).Name,
    monthStemIndex, monthBranchIndex⟩

/-- `ComputeDayPillar`: 60-day cycle keyed off days since 1900-01-01. -/
def ComputeDayPillar (year month day : ℤ) : Pillar :=
  let daysSinceRef := daysFromCivil year month day - daysFromCivil 1900 1 1
  let s := Int.tmod daysSinceRef 10
  let stemIndex := if s < 0 then s + 10 else s
  let b := Int.tmod daysSinceRef 12
  let branchIndex := if b < 0 then b + 12 else b
  ⟨(stemAt stemIndex).Name, (branchAt branchIndex).Name, stemIndex, branchIndex⟩

/-- `ComputeHourPillar`. -/
def ComputeHourPillar (dayPillar : Pillar) (hour : ℤ) : Pillar :=
  let hourBranchIndex := Int.tmod (Int.tdiv (hour + 1) 2) 12
  let hourStemBase := Int.tmod dayPillar.StemIndex 5 * 2
  let hourStemIndex := Int.tmod (hourStemBase + hourBranchIndex) 10
  ⟨(stemAt hourStemIndex).Name, (branchAt hourBranchIndex).Name,
    hourStemIndex, hourBranchIndex⟩

/-- The element-balance map: in Go a `map[string]float64` whose keys are
always exactly the five element names; modelled as one field per element. -/
structure ElemMap where
  Wood : ℚ
  Fire : ℚ
  Earth : ℚ
  Metal : ℚ
  Water : ℚ
  deriving DecidableEq, Repr

/-- Map read `m[e]`. -/
def getE (m : ElemMap) : Element → ℚ
  | .Wood => m.Wood
  | .Fire => m.Fire
  | .Earth => m.Earth
  | .Metal => m.Metal
  | .Water => m.Water

/-- Map update `m[e] += w`. -/
def addE (m : ElemMap) (e : Element) (w : ℚ) : ElemMap :=
  match e with
  | .Wood => { m with Wood := m.Wood + w }
  | .Fire => { m with Fire := m.Fire + w }
  | .Earth => { m with Earth := m.Earth + w }
  | .Metal => { m with Metal := m.Metal + w }
  | .Water => { m with Water := m.Water + w }

/-- The sum of all five values (total weight when iterating the Go map). -/
def sumE (m : ElemMap) : ℚ := m.Wood + m.Fire + m.Earth + m.Metal + m.Water

/-- The element-counting loop of `CalculateElementBalance`: stem weight 1.0
plus branch weight 0.5, per pillar. -/
def countElems (pillars : List Pillar) : ElemMap :=
  pillars.foldl
    (fun acc p =>
      addE (addE acc (stemAt p.StemIndex).Element 1) (branchAt p.BranchIndex).Element (1/2))
    ⟨0, 0, 0, 0, 0⟩

/-- `CalculateElementBalance`: count, then normalize every entry by the
total weight.  (For an empty pillar list the Go code divides 0 by 0,
producing NaN; `ℚ` division by zero yields 0 — every reachable call uses
four pillars, where the total is 6.) -/
def CalculateElementBalance (pillars : List Pillar) : ElemMap :=
  let c := countElems pillars
  let total := sumE c
  ⟨c.Wood / total, c.Fire / total, c.Earth / total, c.Metal / total, c.Water / total⟩

/-- `CalculateYinYangBalance`: stem Yang weight 1.0, branch Yang weight
0.5, normalized by the total weight 1.5 per pillar. -/
def CalculateYinYangBalance (pillars : List Pillar) : ℚ :=
  let yangCount := pillars.foldl
    (fun acc p =>
      (acc + (if (stemAt p.StemIndex).YinYang = "Yang" then 1 else 0))
        + (if (branchAt p.BranchIndex).YinYang = "Yang" then 1/2 else 0))
    0
  let totalCount : ℚ := pillars.foldl (fun acc _ => acc + 1 + 1/2) 0
  yangCount / totalCount

/-- `GetDayMaster`. -/
def GetDayMaster (dayPillar : Pillar) : String := (stemAt dayPillar.StemIndex).Name

/-- `isGeneratingElement`: the five-element generation cycle
Wood → Fire → Earth → Metal → Water → Wood. -/
def isGeneratingElement (e1 e2 : Element) : Bool :=
  (match e1 with
   | .Wood => Element.Fire
   | .Fire => .Earth
   | .Earth => .Metal
   | .Metal => .Water
   | .Water => .Wood) = e2

/-- One iteration of the support loop in `GetDayMasterStrength`: the
pillar at index 2 (the day pillar itself) is skipped; same element adds
0.15 (stem) / 0.10 (branch); a generating element adds 0.10 (stem) /
0.05 (branch). -/
def dayMasterStep (dayElement : Element) (s : ℚ) (ip : ℕ × Pillar) : ℚ :=
  if ip.1 = 2 then s
  else
    let stemElement := (stemAt ip.2.StemIndex).Element
    let branchElement := (branchAt ip.2.BranchIndex).Element
    let s := if stemElement = dayElement then s + 15/100 else s
    let s := if branchElement = dayElement then s + 1/10 else s
    let s := if isGeneratingElement stemElement dayElement then s + 1/10 else s
    if isGeneratingElement branchElement dayElement then s + 1/20 else s

/-- `GetDayMasterStrength`: base 0.3 plus support bonuses from the pillars
other than index 2 (the day pillar), clamped into [0,1]. -/
def GetDayMasterStrength (pillars : List Pillar) (dayPillar : Pillar) : ℚ :=
  let dayElement := (stemAt dayPillar.StemIndex).Element
  let strength := pillars.enum.foldl (dayMasterStep dayElement) (3/10)
  min (max strength 0) 1

/-- `ChineseProfile`. -/
structure ChineseProfile where
  YearPillar : String
  MonthPillar : String
  DayPillar : String
  HourPillar : String
  YinYangBalance : ℚ
  ElementBalance : ElemMap
  DayMaster : String
  DayMasterStrength : ℚ
  deriving DecidableEq, Repr

/-- `GetDayMasterType` (method on `ChineseProfile`). -/
def GetDayMasterType (cp : ChineseProfile) : String :=
  if cp.DayMasterStrength > 7/10 then "Strong"
  else if cp.DayMasterStrength < 3/10 then "Weak"
  else "Moderate"

/-- `GetDominantChineseElement` (method on `ChineseProfile`): the key with
the strictly largest value.  Go iterates the map in unspecified order; the
model iterates in the order Wood, Fire, Earth, Metal, Water (the literal
order of the Go map initialization), so on ties the first of equals wins. -/
def GetDominantChineseElement (cp : ChineseProfile) : String :=
  let step := fun (acc : String × ℚ) (e : Element) =>
    if getE cp.ElementBalance e > acc.2 then (e.name, getE cp.ElementBalance e) else acc
  ([Element.Wood, .Fire, .Earth, .Metal, .Water].foldl step ("", 0)).1

/-- `validateBirthInfo`. -/
def validateBirthInfo (info : BirthInfo) : Except String Unit :=
  if info.Year < 1900 ∨ info.Year > 2100 then
    .error ("year must be between 1900 and 2100, got " ++ intDec info.Year)
  else if info.Month < 1 ∨ info.Month > 12 then
    .error ("month must be between 1 and 12, got " ++ intDec info.Month)
  else if info.Day < 1 ∨ info.Day > 31 then
    .error ("day must be between 1 and 31, got " ++ intDec info.Day)
  else if info.Hour < 0 ∨ info.Hour > 23 then
    .error ("hour must be between 0 and 23, got " ++ intDec info.Hour)
  else if info.Minute < 0 ∨ info.Minute > 59 then
    .error ("minute must be between 0 and 59, got " ++ intDec info.Minute)
  else .ok ()

/-- `ComputeChineseProfile`, parameterized by the timezone database
(`resolveTimezone name` is `none` when Go's `time.LoadLocation` would
fail).  Locations are modelled as fixed-offset wall clocks: `time.Date`
with components in the validated ranges, read back in the same location,
yields the same normalized wall-clock components whatever the location is,
so the profile computation does not depend on the resolved location; a
failed resolution falls back to UTC exactly as the Go code does. -/
def ComputeChineseProfile (resolveTimezone : String → Option Unit) (birthInfo : BirthInfo) :
    Except String ChineseProfile := do
  match validateBirthInfo birthInfo with
  | .error e => .error e
  | .ok _ =>
    let _loc : Unit :=
      if birthInfo.Timezone = "" ∨ birthInfo.Timezone = "UTC" then ()
      else match resolveTimezone birthInfo.Timezone with
        | some l => l
        | none => ()
    let (year, month, day) := normalizeDate birthInfo.Year birthInfo.Month birthInfo.Day
    let hour := birthInfo.Hour
    let yearPillar := ComputeYearPillar year
    let monthPillar := ComputeMonthPillar year month day
    let dayPillar := ComputeDayPillar year month day
    let hourPillar := ComputeHourPillar dayPillar hour
    let pillars := [yearPillar, monthPillar, dayPillar, hourPillar]
    let elementBalance := CalculateElementBalance pillars
    let yinYangBalance := CalculateYinYangBalance pillars
    let dayMaster := GetDayMaster dayPillar
    let dayMasterStrength := GetDayMasterStrength pillars dayPillar
    .ok { YearPillar := yearPillar.PillarToString
          MonthPillar := monthPillar.PillarToString
          DayPillar := dayPillar.PillarToString
          HourPillar := hourPillar.PillarToString
          YinYangBalance := yinYangBalance
          ElementBalance := elementBalance
          DayMaster := dayMaster
          DayMasterStrength := dayMasterStrength }

/-! ## Fusion engine: element signature (`fusion.go`, `buildElementSignature`) -/

/-- `WesternProfile` (same shape as the input profile, minus birth info). -/
structure WesternProfile where
  DominantElement : String
  Modal : ModalBalance
  Cognition : CognitionProfile
  Interaction : InteractionPreferences
  deriving DecidableEq, Repr

/-- The final renormalization step of `buildElementSignature`: divide
every entry by the total when the total is positive. -/
def normalizeE (m : ElemMap) : ElemMap :=
  let total := sumE m
  if total > 0 then
    ⟨m.Wood / total, m.Fire / total, m.Earth / total, m.Metal / total, m.Water / total⟩
  else m

/-- `buildElementSignature`: Western dominant element contributes weight
0.4 (Air split evenly into Wood and Metal), the Chinese element balance
contributes weight 0.6, and the result is renormalized to sum to 1 when
the total is positive. -/
def buildElementSignature (western : WesternProfile) (chinese : ChineseProfile) : ElemMap :=
  let signature : ElemMap := ⟨0, 0, 0, 0, 0⟩
  let westernWeight : ℚ := 4/10
  let signature :=
    if western.DominantElement = "Earth" then addE signature .Earth westernWeight
    else if western.DominantElement = "Air" then
      addE (addE signature .Wood (westernWeight * (5/10))) .Metal (westernWeight * (5/10))
    else if western.DominantElement = "Water" then addE signature .Water westernWeight
    else if western.DominantElement = "Fire" then addE signature .Fire westernWeight
    else signature
  let chineseWeight : ℚ := 6/10
  let signature := addE (addE (addE (addE (addE signature
      .Wood (chinese.ElementBalance.Wood * chineseWeight))
      .Fire (chinese.ElementBalance.Fire * chineseWeight))
      .Earth (chinese.ElementBalance.Earth * chineseWeight))
      .Metal (chinese.ElementBalance.Metal * chineseWeight))
      .Water (chinese.ElementBalance.Water * chineseWeight)
  normalizeE signature

/-! ## Claims C4, C5, C6, C10 -/

/-- Claim C5: `ComputeYearPillar 1984 = "Jia-Zi"` and
`ComputeYearPillar 1990 = "Geng-Wu"` (cycle offset from the Wood-Rat
reference year 1924, mod 10 and mod 12, normalized non-negative). -/
theorem claim_C5_year_pillar_values :
    (ComputeYearPillar 1984).PillarToString = "Jia-Zi" ∧
    (ComputeYearPillar 1990).PillarToString = "Geng-Wu" := by
  constructor
  · decide
  · decide

/-- The five range conditions of `validateBirthInfo`, violated. -/
def birthOutOfRange (info : BirthInfo) : Prop :=
  info.Year < 1900 ∨ info.Year > 2100 ∨ info.Month < 1 ∨ info.Month > 12 ∨
  info.Day < 1 ∨ info.Day > 31 ∨ info.Hour < 0 ∨ info.Hour > 23 ∨
  info.Minute < 0 ∨ info.Minute > 59

instance (info : BirthInfo) : Decidable (birthOutOfRange info) := by
  unfold birthOutOfRange; infer_instance

theorem validateBirthInfo_ok_iff (info : BirthInfo) :
    validateBirthInfo info = .ok () ↔ ¬ birthOutOfRange info := by
  unfold validateBirthInfo birthOutOfRange
  split_ifs <;> simp_all <;> omega

/-- Claim C4: `ComputeChineseProfile` returns an error exactly when one of
the five birth components is out of range; with all components in range an
unresolvable timezone (resolver returning `none`) still succeeds, and
produces the same profile as resolving with timezone "UTC". -/
theorem claim_C4_computeChineseProfile_errors :
    (∀ (resolver : String → Option Unit) (info : BirthInfo),
      (∃ e, ComputeChineseProfile resolver info = .error e) ↔ birthOutOfRange info) ∧
    (∀ (info : BirthInfo) (resolver : String → Option Unit),
      ¬ birthOutOfRange info →
      (∃ p, ComputeChineseProfile (fun _ => none) info = .ok p) ∧
      ComputeChineseProfile (fun _ => none) info =
        ComputeChineseProfile resolver { info with Timezone := "UTC" }) := by
  have hval : ∀ info : BirthInfo, ¬ birthOutOfRange info → validateBirthInfo info = .ok () := by
    intro info h; exact (validateBirthInfo_ok_iff info).mpr h
  have hvalBad : ∀ info : BirthInfo, birthOutOfRange info →
      ∃ e, validateBirthInfo info = .error e := by
    intro info h
    unfold validateBirthInfo
    unfold birthOutOfRange at h
    split_ifs with h1 h2 h3 h4 h5
    · exact ⟨_, rfl⟩
    · exact ⟨_, rfl⟩
    · exact ⟨_, rfl⟩
    · exact ⟨_, rfl⟩
    · exact ⟨_, rfl⟩
    · tauto
  constructor
  · intro resolver info
    constructor
    · intro ⟨e, he⟩
      by_contra hok
      rw [ComputeChineseProfile, hval info hok] at he
      simp at he
    · intro h
      obtain ⟨e, he⟩ := hvalBad info h
      refine ⟨e, ?_⟩
      rw [ComputeChineseProfile, he]
  · intro info resolver h
    have h1 : validateBirthInfo info = .ok () := hval info h
    have h2 : validateBirthInfo { info with Timezone := "UTC" } = .ok () := by
      apply (validateBirthInfo_ok_iff _).mpr
      unfold birthOutOfRange at h ⊢
      simpa using h
    constructor
    · rw [ComputeChineseProfile, h1]
      exact ⟨_, rfl⟩
    · rw [ComputeChineseProfile, h1, ComputeChineseProfile, h2]

/-- Component ranges of a well-formed pillar: stem index 0–9, branch
index 0–11. -/
def validPillar (p : Pillar) : Prop :=
  0 ≤ p.StemIndex ∧ p.StemIndex < 10 ∧ 0 ≤ p.BranchIndex ∧ p.BranchIndex < 12

instance (p : Pillar) : Decidable (validPillar p) := by
  unfold validPillar; infer_instance

theorem sumE_addE (m : ElemMap) (e : Element) (w : ℚ) :
    sumE (addE m e w) = sumE m + w := by
  cases e <;> simp [addE, sumE] <;> ring

theorem sumE_countElems_four (p1 p2 p3 p4 : Pillar) :
    sumE (countElems [p1, p2, p3, p4]) = 6 := by
  simp only [countElems, List.foldl, sumE_addE]
  norm_num [sumE]

theorem sumE_normalizeE (m : ElemMap) (h : sumE m = 1) : sumE (normalizeE m) = 1 := by
  unfold normalizeE
  rw [h]
  norm_num
  simpa [sumE] using h

theorem sumE_buildElementSignature (w : WesternProfile) (cp : ChineseProfile)
    (hw : w.DominantElement = "Earth" ∨ w.DominantElement = "Air" ∨
      w.DominantElement = "Water" ∨ w.DominantElement = "Fire")
    (hb : sumE cp.ElementBalance = 1) :
    sumE (buildElementSignature w cp) = 1 := by
  simp only [sumE] at hb
  rcases hw with hw | hw | hw | hw <;>
  · unfold buildElementSignature
    simp only [hw, reduceIte, String.reduceEq]
    apply sumE_normalizeE
    simp only [sumE_addE]
    simp [sumE]
    linarith

/-- Claim C6: for any four pillars with in-range indices the element
balance sums to 1 within ±0.01 (it sums to exactly 1), and for any
Western profile with a valid dominant element the fusion element
signature over such a balance also sums to 1 within ±0.01. -/
theorem claim_C6_element_maps_sum_to_one (p1 p2 p3 p4 : Pillar)
    (h1 : validPillar p1) (h2 : validPillar p2)
    (h3 : validPillar p3) (h4 : validPillar p4) :
    |sumE (CalculateElementBalance [p1, p2, p3, p4]) - 1| ≤ 1/100 ∧
    (∀ (w : WesternProfile) (cp : ChineseProfile),
      (w.DominantElement = "Earth" ∨ w.DominantElement = "Air" ∨
       w.DominantElement = "Water" ∨ w.DominantElement = "Fire") →
      cp.ElementBalance = CalculateElementBalance [p1, p2, p3, p4] →
      |sumE (buildElementSignature w cp) - 1| ≤ 1/100) := by
  have hcount := sumE_countElems_four p1 p2 p3 p4
  have hbal : sumE (CalculateElementBalance [p1, p2, p3, p4]) = 1 := by
    simp only [CalculateElementBalance, sumE, div_add_div_same] at *
    rw [hcount]
    norm_num
  constructor
  · rw [hbal]; norm_num
  · intro w cp hw hcp
    have hsig : sumE (buildElementSignature w cp) = 1 :=
      sumE_buildElementSignature w cp hw (by rw [hcp]; exact hbal)
    rw [hsig]; norm_num

theorem le_dayMasterStep (d : Element) (s : ℚ) (ip : ℕ × Pillar) :
    s ≤ dayMasterStep d s ip := by
  unfold dayMasterStep
  dsimp only
  split_ifs <;> linarith

theorem le_foldl_dayMasterStep (d : Element) (l : List (ℕ × Pillar)) :
    ∀ s : ℚ, s ≤ l.foldl (dayMasterStep d) s := by
  induction l with
  | nil => intro s; simp
  | cons hd tl ih =>
    intro s
    simp only [List.foldl_cons]
    exact le_trans (le_dayMasterStep d s hd) (ih _)

/-- Claim C10: for any four in-range pillars, `GetDayMasterStrength`
stays in [0.3, 1] (every bonus is non-negative on top of the 0.3 base,
then the value is clamped from above by 1), and consequently
`GetDayMasterType` never classifies such a strength as "Weak". -/
theorem claim_C10_dayMasterStrength_range (p1 p2 p3 p4 : Pillar)
    (h1 : validPillar p1) (h2 : validPillar p2)
    (h3 : validPillar p3) (h4 : validPillar p4) :
    3/10 ≤ GetDayMasterStrength [p1, p2, p3, p4] p3 ∧
    GetDayMasterStrength [p1, p2, p3, p4] p3 ≤ 1 ∧
    (∀ cp : ChineseProfile,
      cp.DayMasterStrength = GetDayMasterStrength [p1, p2, p3, p4] p3 →
      GetDayMasterType cp ≠ "Weak") := by
  have key : (3/10 : ℚ) ≤
      ([p1, p2, p3, p4].enum).foldl (dayMasterStep (stemAt p3.StemIndex).Element) (3/10) :=
    le_foldl_dayMasterStep _ _ _
  have hlow : 3/10 ≤ GetDayMasterStrength [p1, p2, p3, p4] p3 := by
    unfold GetDayMasterStrength
    refine le_min ?_ (by norm_num)
    exact le_trans key (le_max_left _ _)
  have hhigh : GetDayMasterStrength [p1, p2, p3, p4] p3 ≤ 1 := by
    unfold GetDayMasterStrength
    exact min_le_right _ _
  refine ⟨hlow, hhigh, ?_⟩
  intro cp hcp
  unfold GetDayMasterType
  rw [hcp]
  split_ifs with hs hw
  · decide
  · exact absurd (lt_of_lt_of_le hw hlow) (lt_irrefl _)
  · decide

theorem claim_C4_witness :
    (∃ e, ComputeChineseProfile (fun _ => none) ⟨1800, 5, 15, 10, 0, "UTC"⟩ = .error e) ∧
    (∃ p, ComputeChineseProfile (fun _ => none) ⟨1990, 5, 15, 14, 30, "No/Such_Zone"⟩ = .ok p) ∧
    ComputeChineseProfile (fun _ => none) ⟨1990, 5, 15, 14, 30, "No/Such_Zone"⟩ =
      ComputeChineseProfile (fun _ => some ())
        { Year := 1990, Month := 5, Day := 15, Hour := 14, Minute := 30,
          Timezone := "UTC" } := by
  refine ⟨?_, ?_, ?_⟩
  · exact (claim_C4_computeChineseProfile_errors.1 _ _).mpr (by decide)
  · exact (claim_C4_computeChineseProfile_errors.2 _ (fun _ => some ()) (by decide)).1
  · exact (claim_C4_computeChineseProfile_errors.2
      ⟨1990, 5, 15, 14, 30, "No/Such_Zone"⟩ (fun _ => some ()) (by decide)).2

theorem claim_C6_witness :
    |sumE (CalculateElementBalance
      [⟨"Jia", "Zi", 0, 0⟩, ⟨"Yi", "Chou", 1, 1⟩,
       ⟨"Bing", "Yin", 2, 2⟩, ⟨"Ding", "Mao", 3, 3⟩]) - 1| ≤ 1/100 ∧
    |sumE (buildElementSignature
      ⟨"Air", ⟨0, 0, 0⟩, ⟨0, 0, 0, 0, 0⟩, ⟨"balanced", "medium", "neutral"⟩⟩
      ⟨"Jia-Zi", "Yi-Chou", "Bing-Yin", "Ding-Mao", 0,
        CalculateElementBalance
          [⟨"Jia", "Zi", 0, 0⟩, ⟨"Yi", "Chou", 1, 1⟩,
           ⟨"Bing", "Yin", 2, 2⟩, ⟨"Ding", "Mao", 3, 3⟩], "Bing", 0⟩) - 1| ≤ 1/100 := by
  have h := claim_C6_element_maps_sum_to_one
    ⟨"Jia", "Zi", 0, 0⟩ ⟨"Yi", "Chou", 1, 1⟩ ⟨"Bing", "Yin", 2, 2⟩ ⟨"Ding", "Mao", 3, 3⟩
    (by decide) (by decide) (by decide) (by decide)
  exact ⟨h.1, h.2 _ _ (Or.inr (Or.inl rfl)) rfl⟩

theorem claim_C10_witness :
    3/10 ≤ GetDayMasterStrength
      [⟨"Jia", "Zi", 0, 0⟩, ⟨"Yi", "Chou", 1, 1⟩,
       ⟨"Bing", "Yin", 2, 2⟩, ⟨"Ding", "Mao", 3, 3⟩] ⟨"Bing", "Yin", 2, 2⟩ ∧
    GetDayMasterType
      ⟨"Jia-Zi", "Yi-Chou", "Bing-Yin", "Ding-Mao", 0, ⟨0, 0, 0, 0, 0⟩, "Bing",
        GetDayMasterStrength
          [⟨"Jia", "Zi", 0, 0⟩, ⟨"Yi", "Chou", 1, 1⟩,
           ⟨"Bing", "Yin", 2, 2⟩, ⟨"Ding", "Mao", 3, 3⟩] ⟨"Bing", "Yin", 2, 2⟩⟩ ≠ "Weak" := by
  have h := claim_C10_dayMasterStrength_range
    ⟨"Jia", "Zi", 0, 0⟩ ⟨"Yi", "Chou", 1, 1⟩ ⟨"Bing", "Yin", 2, 2⟩ ⟨"Ding", "Mao", 3, 3⟩
    (by decide) (by decide) (by decide) (by decide)
  exact ⟨h.1, h.2.2 _ rfl⟩

/-! ## Bytes, UTF-8 and URL-safe base64 (for the U4 codec and hashing)

Go strings are byte sequences; the modelled profiles carry Lean `String`s
(well-formed Unicode), and byte-level operations go through the UTF-8
encoder below.  Bytes are natural numbers below 256. -/

/-- UTF-8 encoding of one Unicode scalar value (1–4 bytes). -/
def utf8EncodeChar (c : Char) : List ℕ :=
  let n := c.toNat
  if n < 0x80 then [n]
  else if n < 0x800 then [0xC0 + n / 64, 0x80 + n % 64]
  else if n < 0x10000 then [0xE0 + n / 4096, 0x80 + n / 64 % 64, 0x80 + n % 64]
  else [0xF0 + n / 262144, 0x80 + n / 4096 % 64, 0x80 + n / 64 % 64, 0x80 + n % 64]

/-- UTF-8 byte sequence of a character list (a Go string's bytes). -/
def utf8Bytes (l : List Char) : List ℕ := (l.map utf8EncodeChar).flatten

/-- Decode one UTF-8-encoded scalar value from `b :: rest`: rejects
stray continuations, overlong forms, surrogates and out-of-range code
points. -/
def utf8DecodeOne (b : ℕ) (rest : List ℕ) : Option (Char × List ℕ) :=
  if b < 0x80 then some (Char.ofNat b, rest)
  else if b < 0xE0 then
    match rest with
    | b2 :: rest2 =>
      if 0xC2 ≤ b ∧ 0x80 ≤ b2 ∧ b2 < 0xC0 then
        some (Char.ofNat ((b - 0xC0) * 64 + (b2 - 0x80)), rest2)
      else none
    | [] => none
  else if b < 0xF0 then
    match rest with
    | b2 :: b3 :: rest3 =>
      let cp := (b - 0xE0) * 4096 + (b2 - 0x80) * 64 + (b3 - 0x80)
      if (0x80 ≤ b2 ∧ b2 < 0xC0) ∧ (0x80 ≤ b3 ∧ b3 < 0xC0) ∧ 0x800 ≤ cp ∧
          ¬(0xD800 ≤ cp ∧ cp < 0xE000) then
        some (Char.ofNat cp, rest3)
      else none
    | _ => none
  else
    match rest with
    | b2 :: b3 :: b4 :: rest4 =>
      let cp := (b - 0xF0) * 262144 + (b2 - 0x80) * 4096 + (b3 - 0x80) * 64 + (b4 - 0x80)
      if b < 0xF5 ∧ (0x80 ≤ b2 ∧ b2 < 0xC0) ∧ (0x80 ≤ b3 ∧ b3 < 0xC0) ∧
          (0x80 ≤ b4 ∧ b4 < 0xC0) ∧ 0x10000 ≤ cp ∧ cp < 0x110000 then
        some (Char.ofNat cp, rest4)
      else none
    | _ => none

theorem utf8DecodeOne_length (b : ℕ) (rest : List ℕ) (c : Char) (tl : List ℕ)
    (h : utf8DecodeOne b rest = some (c, tl)) : tl.length ≤ rest.length := by
  rcases rest with _ | ⟨b2, _ | ⟨b3, _ | ⟨b4, r⟩⟩⟩ <;>
    (unfold utf8DecodeOne at h
     split_ifs at h <;> (try simp_all) <;> (try split_ifs at h) <;>
       (try simp_all) <;> (try omega))

/-- Strict UTF-8 decoding of a whole byte sequence. -/
def utf8DecodeBytes : List ℕ → Option (List Char)
  | [] => some []
  | b :: rest =>
    match h : utf8DecodeOne b rest with
    | some (c, rest2) => (utf8DecodeBytes rest2).map (fun cs => c :: cs)
    | none => none
termination_by l => l.length
decreasing_by
  have := utf8DecodeOne_length b rest _ _ h
  simp
  omega

theorem char_toNat_valid (c : Char) :
    c.toNat < 0xD800 ∨ (0xDFFF < c.toNat ∧ c.toNat < 0x110000) := c.valid

theorem utf8Bytes_cons (c : Char) (l : List Char) :
    utf8Bytes (c :: l) = utf8EncodeChar c ++ utf8Bytes l := by
  simp [utf8Bytes]

theorem utf8Bytes_lt_256 (l : List Char) : ∀ b ∈ utf8Bytes l, b < 256 := by
  induction l with
  | nil => intro b hb; simp [utf8Bytes] at hb
  | cons c cs ih =>
    intro b hb
    rw [utf8Bytes_cons, List.mem_append] at hb
    rcases hb with hb | hb
    · have hv := char_toNat_valid c
      unfold utf8EncodeChar at hb
      dsimp only at hb
      split_ifs at hb <;> simp at hb <;> omega
    · exact ih b hb

theorem utf8DecodeOne_encode (c : Char) (tail : List Char) :
    (match utf8EncodeChar c ++ utf8Bytes tail with
     | [] => none
     | b :: rest => utf8DecodeOne b rest) = some (c, utf8Bytes tail) := by
  have hv := char_toNat_valid c
  by_cases h1 : c.toNat < 0x80
  · have he : utf8EncodeChar c = [c.toNat] := by
      unfold utf8EncodeChar; dsimp only; rw [if_pos h1]
    rw [he, List.cons_append, List.nil_append]
    dsimp only
    unfold utf8DecodeOne
    rw [if_pos h1, Char.ofNat_toNat]
  · by_cases h2 : c.toNat < 0x800
    · have he : utf8EncodeChar c = [0xC0 + c.toNat / 64, 0x80 + c.toNat % 64] := by
        unfold utf8EncodeChar; dsimp only; rw [if_neg h1, if_pos h2]
      rw [he, List.cons_append, List.cons_append, List.nil_append]
      dsimp only
      unfold utf8DecodeOne
      rw [if_neg (by omega), if_pos (by omega)]
      dsimp only
      rw [if_pos (by omega)]
      have hcp : (0xC0 + c.toNat / 64 - 0xC0) * 64 + (0x80 + c.toNat % 64 - 0x80) =
          c.toNat := by omega
      rw [hcp, Char.ofNat_toNat]
    · by_cases h3 : c.toNat < 0x10000
      · have he : utf8EncodeChar c =
            [0xE0 + c.toNat / 4096, 0x80 + c.toNat / 64 % 64, 0x80 + c.toNat % 64] := by
          unfold utf8EncodeChar; dsimp only; rw [if_neg h1, if_neg h2, if_pos h3]
        rw [he, List.cons_append, List.cons_append, List.cons_append, List.nil_append]
        dsimp only
        unfold utf8DecodeOne
        rw [if_neg (by omega), if_neg (by omega), if_pos (by omega)]
        dsimp only
        rw [if_pos (by omega)]
        have hcp : (0xE0 + c.toNat / 4096 - 0xE0) * 4096 +
            (0x80 + c.toNat / 64 % 64 - 0x80) * 64 + (0x80 + c.toNat % 64 - 0x80) =
            c.toNat := by omega
        rw [hcp, Char.ofNat_toNat]
      · have he : utf8EncodeChar c =
            [0xF0 + c.toNat / 262144, 0x80 + c.toNat / 4096 % 64,
             0x80 + c.toNat / 64 % 64, 0x80 + c.toNat % 64] := by
          unfold utf8EncodeChar; dsimp only; rw [if_neg h1, if_neg h2, if_neg h3]
        rw [he, List.cons_append, List.cons_append, List.cons_append, List.cons_append,
          List.nil_append]
        dsimp only
        unfold utf8DecodeOne
        rw [if_neg (by omega), if_neg (by omega), if_neg (by omega)]
        dsimp only
        rw [if_pos (by omega)]
        have hcp : (0xF0 + c.toNat / 262144 - 0xF0) * 262144 +
            (0x80 + c.toNat / 4096 % 64 - 0x80) * 4096 +
            (0x80 + c.toNat / 64 % 64 - 0x80) * 64 + (0x80 + c.toNat % 64 - 0x80) =
            c.toNat := by omega
        rw [hcp, Char.ofNat_toNat]

theorem utf8_roundtrip (l : List Char) : utf8DecodeBytes (utf8Bytes l) = some l := by
  induction l with
  | nil => simp [utf8Bytes, utf8DecodeBytes]
  | cons c cs ih =>
    have hone := utf8DecodeOne_encode c cs
    rw [utf8Bytes_cons]
    rcases hb : utf8EncodeChar c ++ utf8Bytes cs with _ | ⟨b, rest⟩
    · rw [hb] at hone; simp at hone
    · rw [hb] at hone
      dsimp only at hone
      rw [utf8DecodeBytes, hone]
      dsimp only
      rw [ih]
      rfl

/-- URL-safe base64 alphabet (RFC 4648 §5), as used by Go's
`base64.RawURLEncoding`. -/
def b64Char (n : ℕ) : Char :=
  if n < 26 then Char.ofNat (65 + n)
  else if n < 52 then Char.ofNat (97 + (n - 26))
  else if n < 62 then Char.ofNat (48 + (n - 52))
  else if n = 62 then '-' else '_'

/-- Inverse alphabet lookup. -/
def b64Val (c : Char) : Option ℕ :=
  let n := c.toNat
  if 65 ≤ n ∧ n ≤ 90 then some (n - 65)
  else if 97 ≤ n ∧ n ≤ 122 then some (26 + (n - 97))
  else if 48 ≤ n ∧ n ≤ 57 then some (52 + (n - 48))
  else if n = 45 then some 62
  else if n = 95 then some 63
  else none

/-- `base64.RawURLEncoding.EncodeToString`: groups of three bytes become
four alphabet characters; a final group of one/two bytes becomes two/three
characters, with no padding. -/
def b64Encode : List ℕ → List Char
  | [] => []
  | [a] => [b64Char (a / 4 % 64), b64Char (a % 4 * 16)]
  | [a, b] => [b64Char (a / 4 % 64), b64Char ((a % 4 * 16 + b / 16) % 64), b64Char (b % 16 * 4)]
  | a :: b :: c :: rest =>
    b64Char (a / 4 % 64) :: b64Char ((a % 4 * 16 + b / 16) % 64) ::
    b64Char ((b % 16 * 4 + c / 64) % 64) :: b64Char (c % 64) :: b64Encode rest

/-- `base64.RawURLEncoding.DecodeString` (non-strict, like Go's default:
trailing bits of a final fragment are not checked). -/
def b64Decode : List Char → Option (List ℕ)
  | [] => some []
  | [_] => none
  | [c1, c2] =>
    match b64Val c1, b64Val c2 with
    | some v1, some v2 => some [v1 * 4 + v2 / 16]
    | _, _ => none
  | [c1, c2, c3] =>
    match b64Val c1, b64Val c2, b64Val c3 with
    | some v1, some v2, some v3 => some [v1 * 4 + v2 / 16, v2 % 16 * 16 + v3 / 4]
    | _, _, _ => none
  | c1 :: c2 :: c3 :: c4 :: rest =>
    match b64Val c1, b64Val c2, b64Val c3, b64Val c4, b64Decode rest with
    | some v1, some v2, some v3, some v4, some ds =>
      some ((v1 * 4 + v2 / 16) :: (v2 % 16 * 16 + v3 / 4) :: (v3 % 4 * 64 + v4) :: ds)
    | _, _, _, _, _ => none

theorem b64Val_b64Char : ∀ v < 64, b64Val (b64Char v) = some v := by decide

theorem b64_roundtrip (l : List ℕ) (h : ∀ b ∈ l, b < 256) :
    b64Decode (b64Encode l) = some l := by
  induction l using b64Encode.induct with
  | case1 => rfl
  | case2 a =>
    have ha : a < 256 := h a (by simp)
    rw [b64Encode, b64Decode,
      b64Val_b64Char _ (by omega), b64Val_b64Char _ (by omega)]
    simp only [Option.some.injEq, List.cons.injEq, and_true]
    omega
  | case3 a b =>
    have ha : a < 256 := h a (by simp)
    have hb : b < 256 := h b (by simp)
    rw [b64Encode, b64Decode, b64Val_b64Char _ (by omega),
      b64Val_b64Char _ (by omega), b64Val_b64Char _ (by omega)]
    simp only [Option.some.injEq, List.cons.injEq, and_true]
    constructor <;> omega
  | case4 a b c rest ih =>
    have ha : a < 256 := h a (by simp)
    have hb : b < 256 := h b (by simp)
    have hc : c < 256 := h c (by simp)
    have hrest := ih (fun x hx => h x (by simp [hx]))
    rw [b64Encode, b64Decode, b64Val_b64Char _ (by omega), b64Val_b64Char _ (by omega),
      b64Val_b64Char _ (by omega), b64Val_b64Char _ (by omega), hrest]
    simp only [Option.some.injEq, List.cons.injEq, and_true]
    refine ⟨by omega, by omega, by omega⟩

/-! ## The normalized profile and its canonical JSON
(`NormalizeProfile`, `json.Marshal` field order as declared in `types.go`) -/

/-- `NormalizedModal` (integer percentages). -/
structure NormalizedModal where
  C : ℤ
  F : ℤ
  M : ℤ
  deriving DecidableEq, Repr

/-- `NormalizedCognition` (integer percentages). -/
structure NormalizedCognition where
  F : ℤ
  C : ℤ
  V : ℤ
  S : ℤ
  Cr : ℤ
  deriving DecidableEq, Repr

/-- `NormalizedInteraction` (single-letter codes). -/
structure NormalizedInteraction where
  PB : String
  SM : String
  TN : String
  deriving DecidableEq, Repr

/-- `NormalizedProfile`. -/
structure NormalizedProfile where
  Element : String
  Modal : NormalizedModal
  Cog : NormalizedCognition
  Int : NormalizedInteraction
  deriving DecidableEq, Repr

/-- `NormalizeProfile` from `internal/hcs/codec_u7.go`. -/
def NormalizeProfile (inp : InputProfile) : NormalizedProfile where
  Element := mapElementToLetter inp.DominantElement
  Modal := ⟨clampAndRound inp.Modal.Cardinal, clampAndRound inp.Modal.Fixed,
            clampAndRound inp.Modal.Mutable⟩
  Cog := ⟨clampAndRound inp.Cognition.Fluid, clampAndRound inp.Cognition.Crystallized,
          clampAndRound inp.Cognition.Verbal, clampAndRound inp.Cognition.Strategic,
          clampAndRound inp.Cognition.Creative⟩
  Int := ⟨mapPaceToLetter inp.Interaction.Pace, mapStructureToLetter inp.Interaction.Structure,
          mapToneToLetter inp.Interaction.Tone⟩

/-- Lowercase hexadecimal digit, as Go's JSON encoder emits. -/
def hexDigitChar (n : ℕ) : Char := if n < 10 then Char.ofNat (48 + n) else Char.ofNat (87 + n)

/-- Go `encoding/json` string escaping (with the default HTML escaping):
quote, backslash, the three short control escapes, other control
characters as lowercase hex, the HTML-sensitive characters as hex, and
the two line separators. Everything else is emitted verbatim. -/
def escapeChar (c : Char) : List Char :=
  if c = '"' then ['\\', '"']
  else if c = '\\' then ['\\', '\\']
  else if c = '\n' then ['\\', 'n']
  else if c = '\r' then ['\\', 'r']
  else if c = '\t' then ['\\', 't']
  else if c.toNat < 0x20 then
    ['\\', 'u', '0', '0', hexDigitChar (c.toNat / 16), hexDigitChar (c.toNat % 16)]
  else if c = '<' ∨ c = '>' ∨ c = '&' then
    ['\\', 'u', '0', '0', hexDigitChar (c.toNat / 16), hexDigitChar (c.toNat % 16)]
  else if c.toNat = 0x2028 then ['\\', 'u', '2', '0', '2', '8']
  else if c.toNat = 0x2029 then ['\\', 'u', '2', '0', '2', '9']
  else [c]

/-- Escape a whole string body. -/
def escapeString (l : List Char) : List Char := (l.map escapeChar).flatten

/-- A JSON string literal (quotes plus escaped body). -/
def jsonString (s : String) : List Char := '"' :: (escapeString s.data ++ ['"'])

/-- `json.Marshal` of a `NormalizedModal`. -/
def jsonModal (m : NormalizedModal) : List Char :=
  ("\x7b\"c\":").data ++ (intDec m.C).data ++ (",\"f\":").data ++ (intDec m.F).data
  ++ (",\"m\":").data ++ (intDec m.M).data ++ ['}']

/-- `json.Marshal` of a `NormalizedCognition`. -/
def jsonCog (g : NormalizedCognition) : List Char :=
  ("\x7b\"F\":").data ++ (intDec g.F).data ++ (",\"C\":").data ++ (intDec g.C).data
  ++ (",\"V\":").data ++ (intDec g.V).data ++ (",\"S\":").data ++ (intDec g.S).data
  ++ (",\"Cr\":").data ++ (intDec g.Cr).data ++ ['}']

/-- `json.Marshal` of a `NormalizedInteraction`. -/
def jsonInt (i : NormalizedInteraction) : List Char :=
  ("\x7b\"PB\":").data ++ jsonString i.PB ++ (",\"SM\":").data ++ jsonString i.SM
  ++ (",\"TN\":").data ++ jsonString i.TN ++ ['}']

/-- `json.Marshal` of a `NormalizedProfile` (struct fields in declaration
order, exactly as Go emits them, no whitespace). -/
def jsonNormalized (n : NormalizedProfile) : List Char :=
  ("\x7b\"element\":").data ++ jsonString n.Element
  ++ (",\"modal\":").data ++ jsonModal n.Modal
  ++ (",\"cog\":").data ++ jsonCog n.Cog
  ++ (",\"int\":").data ++ jsonInt n.Int ++ ['}']

/-- `json.Marshal` of `map[string]interface{}{"profile": n, "chip": chip}`:
Go marshals maps with the keys in sorted order, so "chip" precedes
"profile". -/
def jsonU4 (n : NormalizedProfile) (chip : String) : List Char :=
  ("\x7b\"chip\":").data ++ jsonString chip
  ++ (",\"profile\":").data ++ jsonNormalized n ++ ['}']

/-! ## A JSON parser (the subset Go's `json.Unmarshal` exercises on the
documents the U4 codec produces: objects, strings, integers) -/

/-- Parsed JSON values. -/
inductive Jv where
  | str (s : String)
  | int (n : ℤ)
  | obj (fields : List (String × Jv))

/-- One hexadecimal digit. -/
def parseHexDigit (c : Char) : Option ℕ :=
  let n := c.toNat
  if 48 ≤ n ∧ n ≤ 57 then some (n - 48)
  else if 97 ≤ n ∧ n ≤ 102 then some (n - 87)
  else if 65 ≤ n ∧ n ≤ 70 then some (n - 55)
  else none

/-- Decode the escape sequence following a backslash: the short escapes
plus `\uXXXX`, with surrogate pairs combined and lone or ill-formed
surrogates becoming U+FFFD, as in Go's JSON decoder. -/
def unescapeOne : List Char → Option (Char × List Char)
  | [] => none
  | e :: rest =>
    if e = 'u' then
      match rest with
      | h1 :: h2 :: h3 :: h4 :: rest2 =>
        match parseHexDigit h1, parseHexDigit h2, parseHexDigit h3, parseHexDigit h4 with
        | some d1, some d2, some d3, some d4 =>
          let cp := d1 * 4096 + d2 * 256 + d3 * 16 + d4
          if 0xD800 ≤ cp ∧ cp < 0xDC00 then
            match rest2 with
            | b :: u :: g1 :: g2 :: g3 :: g4 :: rest3 =>
              if b = '\\' ∧ u = 'u' then
                match parseHexDigit g1, parseHexDigit g2, parseHexDigit g3, parseHexDigit g4 with
                | some e1, some e2, some e3, some e4 =>
                  let lo := e1 * 4096 + e2 * 256 + e3 * 16 + e4
                  if 0xDC00 ≤ lo ∧ lo < 0xE000 then
                    some (Char.ofNat (0x10000 + (cp - 0xD800) * 1024 + (lo - 0xDC00)), rest3)
                  else some (Char.ofNat 0xFFFD, rest2)
                | _, _, _, _ => some (Char.ofNat 0xFFFD, rest2)
              else some (Char.ofNat 0xFFFD, rest2)
            | _ => some (Char.ofNat 0xFFFD, rest2)
          else if 0xDC00 ≤ cp ∧ cp < 0xE000 then some (Char.ofNat 0xFFFD, rest2)
          else some (Char.ofNat cp, rest2)
        | _, _, _, _ => none
      | _ => none
    else if e = '"' then some ('"', rest)
    else if e = '\\' then some ('\\', rest)
    else if e = '/' then some ('/', rest)
    else if e = 'b' then some (Char.ofNat 8, rest)
    else if e = 'f' then some (Char.ofNat 12, rest)
    else if e = 'n' then some ('\n', rest)
    else if e = 'r' then some ('\r', rest)
    else if e = 't' then some ('\t', rest)
    else none

set_option maxHeartbeats 1000000 in
theorem unescapeOne_length (l : List Char) (c : Char) (tl : List Char)
    (h : unescapeOne l = some (c, tl)) : tl.length ≤ l.length := by
  rcases l with _ | ⟨e, rest⟩
  · exact absurd h (by simp [unescapeOne])
  by_cases hu : e = 'u'
  · subst hu
    rcases rest with _ | ⟨h1, _ | ⟨h2, _ | ⟨h3, _ | ⟨h4, rest2⟩⟩⟩⟩ <;>
      simp only [unescapeOne, if_true] at h <;>
      (try exact absurd h (by simp)) <;>
      rcases rest2 with _ | ⟨b, _ | ⟨u, _ | ⟨g1, _ | ⟨g2, _ | ⟨g3, _ | ⟨g4, rest3⟩⟩⟩⟩⟩⟩ <;>
      (repeat' split at h) <;>
      (try split_ifs at h) <;>
      (repeat' split at h) <;>
      (try split_ifs at h) <;>
      simp_all <;>
      omega
  · simp only [unescapeOne] at h
    rw [if_neg hu] at h
    split_ifs at h <;> simp_all
/-- Parse a JSON string body up to and including the closing quote.
Raw control characters are rejected, escapes are decoded. -/
def parseStringBody : List Char → Option (List Char × List Char)
  | [] => none
  | c :: rest =>
    if c = '"' then some ([], rest)
    else if c = '\\' then
      match h : unescapeOne rest with
      | some (d, rest2) => (parseStringBody rest2).map (fun p => (d :: p.1, p.2))
      | none => none
    else if c.toNat < 0x20 then none
    else (parseStringBody rest).map (fun p => (c :: p.1, p.2))
termination_by l => l.length
decreasing_by
  · have := unescapeOne_length rest _ _ h
    simp
    omega
  · simp

/-- Accumulate decimal digits. -/
def parseDigits : List Char → ℕ → ℕ × List Char
  | [], acc => (acc, [])
  | c :: rest, acc =>
    if c.isDigit then parseDigits rest (10 * acc + (c.toNat - 48)) else (acc, c :: rest)

/-- Parse an integer JSON number (the only number form the U4 documents
contain). -/
def parseNumber : List Char → Option (ℤ × List Char)
  | [] => none
  | c :: rest =>
    if c = '-' then
      match rest with
      | c2 :: rest2 =>
        if c2.isDigit then
          let p := parseDigits (c2 :: rest2) 0
          some (-(p.1 : ℤ), p.2)
        else none
      | [] => none
    else if c.isDigit then
      let p := parseDigits (c :: rest) 0
      some ((p.1 : ℤ), p.2)
    else none

mutual

/-- Parse one JSON value.  The fuel only bounds nesting/member count and
decreases at every mutual call; since every such call first consumes at
least one input character, `length input + 1` fuel never runs out. -/
def parseValue : ℕ → List Char → Option (Jv × List Char)
  | 0, _ => none
  | f + 1, input =>
    match input with
    | [] => none
    | c :: rest =>
      if c = '"' then (parseStringBody rest).map (fun p => (.str ⟨p.1⟩, p.2))
      else if c = '{' then
        if rest.head? = some '}' then some (.obj [], rest.tail)
        else (parseMembers f rest).map (fun p => (.obj p.1, p.2))
      else (parseNumber (c :: rest)).map (fun p => (.int p.1, p.2))

/-- Parse a nonempty member list of an object, consuming the closing
brace. -/
def parseMembers : ℕ → List Char → Option (List (String × Jv) × List Char)
  | 0, _ => none
  | f + 1, input =>
    match input with
    | [] => none
    | c :: rest =>
      if c = '"' then
        match parseStringBody rest with
        | some (key, r1) =>
          if r1.head? = some ':' then
            match parseValue f r1.tail with
            | some (v, r3) =>
              if r3.head? = some ',' then
                (parseMembers f r3.tail).map (fun p => ((⟨key⟩, v) :: p.1, p.2))
              else if r3.head? = some '}' then some ([(⟨key⟩, v)], r3.tail)
              else none
            | none => none
          else none
        | none => none
      else none

end

/-! ## Round-trip lemmas for the JSON layer -/

/-- The continuation after a printed number never starts with a digit. -/
def headNotDigit : List Char → Prop
  | [] => True
  | c :: _ => c.isDigit = false

theorem parseDigits_stop (rest : List Char) (acc : ℕ) (h : headNotDigit rest) :
    parseDigits rest acc = (acc, rest) := by
  cases rest with
  | nil => rfl
  | cons c tl =>
    unfold parseDigits
    unfold headNotDigit at h
    rw [h]
    simp

theorem digitChar_facts :
    ∀ m < 10, (Char.ofNat (48 + m)).isDigit = true ∧ (Char.ofNat (48 + m)).toNat = 48 + m := by
  decide

theorem natDecAux_all_digits : ∀ (fuel n : ℕ), ∀ c ∈ natDecAux fuel n, c.isDigit = true := by
  intro fuel
  induction fuel with
  | zero => intro n c hc; simp [natDecAux] at hc
  | succ f ih =>
    intro n c hc
    unfold natDecAux at hc
    split_ifs at hc with h
    · simp at hc
    · rw [List.mem_append] at hc
      rcases hc with hc | hc
      · exact ih _ c hc
      · simp at hc
        subst hc
        exact (digitChar_facts (n % 10) (by omega)).1

theorem parseDigits_natDecAux : ∀ (fuel n acc : ℕ) (rest : List Char), n ≤ fuel →
    parseDigits (natDecAux fuel n ++ rest) acc =
      parseDigits rest (acc * 10 ^ (natDecAux fuel n).length + n) := by
  intro fuel
  induction fuel with
  | zero =>
    intro n acc rest h
    interval_cases n
    simp [natDecAux]
  | succ f ih =>
    intro n acc rest h
    by_cases h0 : n = 0
    · subst h0; simp [natDecAux]
    · rw [natDecAux, if_neg h0, List.append_assoc, ih (n / 10) acc _ (by omega),
        List.singleton_append]
      have hd := digitChar_facts (n % 10) (by omega)
      rw [parseDigits, hd.1]
      simp only [if_true, hd.2]
      have hlen : (natDecAux f (n / 10) ++ [Char.ofNat (48 + n % 10)]).length =
          (natDecAux f (n / 10)).length + 1 := by simp
      rw [hlen]
      congr 1
      have hmod : 10 * (n / 10) + n % 10 = n := Nat.div_add_mod n 10
      have hsub : 48 + n % 10 - 48 = n % 10 := by omega
      calc 10 * (acc * 10 ^ (natDecAux f (n / 10)).length + n / 10) + (48 + n % 10 - 48)
          = acc * (10 ^ (natDecAux f (n / 10)).length * 10) + (10 * (n / 10) + n % 10) := by
            rw [hsub]; ring
        _ = acc * 10 ^ ((natDecAux f (n / 10)).length + 1) + n := by rw [hmod, pow_succ]

theorem parseDigits_natDec (n : ℕ) (rest : List Char) (h : headNotDigit rest) :
    parseDigits ((natDec n).data ++ rest) 0 = (n, rest) := by
  by_cases h0 : n = 0
  · subst h0
    have : (natDec 0).data = ['0'] := rfl
    rw [this, List.singleton_append, parseDigits]
    simp only [show ('0').isDigit = true from rfl, if_true]
    have : (10 * 0 + (('0').toNat - 48)) = 0 := rfl
    rw [this, parseDigits_stop rest 0 h]
  · have : (natDec n).data = natDecAux n n := by
      unfold natDec; rw [if_neg h0]
    rw [this, parseDigits_natDecAux n n 0 rest le_rfl, parseDigits_stop _ _ h]
    simp

theorem natDec_shape (n : ℕ) :
    ∃ d ds, (natDec n).data = d :: ds ∧ d.isDigit = true := by
  by_cases h0 : n = 0
  · subst h0; exact ⟨'0', [], rfl, rfl⟩
  · have hdata : (natDec n).data = natDecAux n n := by
      unfold natDec; rw [if_neg h0]
    have hne : natDecAux n n ≠ [] := by
      cases hn : n with
      | zero => exact absurd hn h0
      | succ m =>
        rw [natDecAux]
        rw [if_neg (by omega)]
        simp
    rcases hsh : natDecAux n n with _ | ⟨d, ds⟩
    · exact absurd hsh hne
    · refine ⟨d, ds, by rw [hdata, hsh], ?_⟩
      have := natDecAux_all_digits n n d (by rw [hsh]; simp)
      exact this

theorem digit_ne_minus (d : Char) (hd : d.isDigit = true) : d ≠ '-' := by
  intro he
  subst he
  simp [Char.isDigit] at hd

theorem parseNumber_intDec (k : ℤ) (rest : List Char) (h : headNotDigit rest) :
    parseNumber ((intDec k).data ++ rest) = some (k, rest) := by
  obtain ⟨d, ds, hsh, hdig⟩ := natDec_shape k.natAbs
  by_cases hk : k < 0
  · have hdata : (intDec k).data = '-' :: (d :: ds) := by
      unfold intDec
      rw [if_pos hk, String.data_append, hsh]
      rfl
    rw [hdata]
    simp only [List.cons_append, parseNumber, if_pos rfl, hdig, if_true]
    have hpd : parseDigits ((d :: ds) ++ rest) 0 = (k.natAbs, rest) := by
      rw [← hsh]
      exact parseDigits_natDec k.natAbs rest h
    rw [List.cons_append] at hpd
    rw [hpd]
    simp only [Option.some.injEq, Prod.mk.injEq, and_true]
    omega
  · have hdata : (intDec k).data = d :: ds := by
      unfold intDec
      rw [if_neg hk, String.data_append, hsh]
      rfl
    rw [hdata]
    have hnm : d ≠ '-' := digit_ne_minus d hdig
    simp only [List.cons_append, parseNumber, if_neg hnm, hdig, if_true]
    have hpd : parseDigits ((d :: ds) ++ rest) 0 = (k.natAbs, rest) := by
      rw [← hsh]
      exact parseDigits_natDec k.natAbs rest h
    rw [List.cons_append] at hpd
    rw [hpd]
    simp only [Option.some.injEq, Prod.mk.injEq, and_true]
    omega

theorem hexDigitChar_parse : ∀ m < 16, parseHexDigit (hexDigitChar m) = some m := by decide

theorem escapeString_cons (c : Char) (s : List Char) :
    escapeString (c :: s) = escapeChar c ++ escapeString s := by simp [escapeString]

theorem parseStringBody_escape (s rest : List Char) :
    parseStringBody (escapeString s ++ ('"' :: rest)) = some (s, rest) := by
  induction s with
  | nil =>
    have he : escapeString [] = [] := rfl
    rw [he, List.nil_append, parseStringBody]
    simp
  | cons c cs ih =>
    rw [escapeString_cons, List.append_assoc]
    unfold escapeChar
    have z0 : parseHexDigit '0' = some 0 := rfl
    split_ifs with h1 h2 h3 h4 h5 h6 h7 h8 h9
    · subst h1
      rw [List.cons_append, List.cons_append, List.nil_append, parseStringBody]
      simp [unescapeOne, ih]
    · subst h2
      rw [List.cons_append, List.cons_append, List.nil_append, parseStringBody]
      simp [unescapeOne, ih]
    · subst h3
      rw [List.cons_append, List.cons_append, List.nil_append, parseStringBody]
      simp [unescapeOne, ih]
    · subst h4
      rw [List.cons_append, List.cons_append, List.nil_append, parseStringBody]
      simp [unescapeOne, ih]
    · subst h5
      rw [List.cons_append, List.cons_append, List.nil_append, parseStringBody]
      simp [unescapeOne, ih]
    · -- control character: \u00XY
      have e1 := hexDigitChar_parse (c.toNat / 16) (by omega)
      have e2 := hexDigitChar_parse (c.toNat % 16) (by omega)
      have hu : unescapeOne ('u' :: '0' :: '0' :: hexDigitChar (c.toNat / 16) ::
          hexDigitChar (c.toNat % 16) :: (escapeString cs ++ '"' :: rest)) =
          some (c, escapeString cs ++ '"' :: rest) := by
        simp only [unescapeOne, reduceIte, z0, e1, e2]
        rw [if_neg (by omega), if_neg (by omega)]
        have hcp : (0 : ℕ) * 4096 + 0 * 256 + c.toNat / 16 * 16 + c.toNat % 16 = c.toNat := by
          omega
        rw [hcp, Char.ofNat_toNat]
      simp only [List.cons_append, List.nil_append]
      rw [parseStringBody]
      simp only [reduceIte]
      rw [hu]
      dsimp only
      rw [ih]
      simp
    · -- HTML-escaped character: also \u00XY, with c.toNat < 0x80
      have hlt : c.toNat < 128 := by
        rcases h7 with h | h | h <;> subst h <;> decide
      have e1 := hexDigitChar_parse (c.toNat / 16) (by omega)
      have e2 := hexDigitChar_parse (c.toNat % 16) (by omega)
      have hu : unescapeOne ('u' :: '0' :: '0' :: hexDigitChar (c.toNat / 16) ::
          hexDigitChar (c.toNat % 16) :: (escapeString cs ++ '"' :: rest)) =
          some (c, escapeString cs ++ '"' :: rest) := by
        simp only [unescapeOne, reduceIte, z0, e1, e2]
        rw [if_neg (by omega), if_neg (by omega)]
        have hcp : (0 : ℕ) * 4096 + 0 * 256 + c.toNat / 16 * 16 + c.toNat % 16 = c.toNat := by
          omega
        rw [hcp, Char.ofNat_toNat]
      simp only [List.cons_append, List.nil_append]
      rw [parseStringBody]
      simp only [reduceIte]
      rw [hu]
      dsimp only
      rw [ih]
      simp
    · -- U+2028
      have z2 : parseHexDigit '2' = some 2 := rfl
      have z8 : parseHexDigit '8' = some 8 := rfl
      have hu : unescapeOne ('u' :: '2' :: '0' :: '2' :: '8' ::
          (escapeString cs ++ '"' :: rest)) = some (c, escapeString cs ++ '"' :: rest) := by
        simp only [unescapeOne, reduceIte, z0, z2, z8]
        rw [if_neg (by norm_num), if_neg (by norm_num)]
        have hval : (2 : ℕ) * 4096 + 0 * 256 + 2 * 16 + 8 = c.toNat := by omega
        rw [hval, Char.ofNat_toNat]
      simp only [List.cons_append, List.nil_append]
      rw [parseStringBody]
      simp only [reduceIte]
      rw [hu]
      dsimp only
      rw [ih]
      simp
    · -- U+2029
      have z2 : parseHexDigit '2' = some 2 := rfl
      have z9 : parseHexDigit '9' = some 9 := rfl
      have hu : unescapeOne ('u' :: '2' :: '0' :: '2' :: '9' ::
          (escapeString cs ++ '"' :: rest)) = some (c, escapeString cs ++ '"' :: rest) := by
        simp only [unescapeOne, reduceIte, z0, z2, z9]
        rw [if_neg (by norm_num), if_neg (by norm_num)]
        have hval : (2 : ℕ) * 4096 + 0 * 256 + 2 * 16 + 9 = c.toNat := by omega
        rw [hval, Char.ofNat_toNat]
      simp only [List.cons_append, List.nil_append]
      rw [parseStringBody]
      simp only [reduceIte]
      rw [hu]
      dsimp only
      rw [ih]
      simp
    · -- plain character
      simp only [List.cons_append, List.nil_append]
      rw [parseStringBody]
      rw [if_neg h1, if_neg h2, if_neg (by omega)]
      rw [ih]
      simp

/-! ## Parsing the printed JSON documents, and the U4 codec -/

theorem parseValue_jsonString (f : ℕ) (s : String) (rest : List Char) :
    parseValue (f + 1) (jsonString s ++ rest) = some (.str s, rest) := by
  rw [jsonString]
  simp only [List.cons_append, List.append_assoc, List.singleton_append]
  rw [parseValue]
  simp only [reduceIte]
  rw [parseStringBody_escape]
  rfl

theorem digit_ne_quote_brace (d : Char) (hd : d.isDigit = true) :
    d ≠ '"' ∧ d ≠ '{' := by
  constructor <;> (intro he; subst he; simp [Char.isDigit] at hd)

theorem parseValue_intDec (f : ℕ) (k : ℤ) (rest : List Char) (h : headNotDigit rest) :
    parseValue (f + 1) ((intDec k).data ++ rest) = some (.int k, rest) := by
  obtain ⟨d, ds, hsh, hdig⟩ := natDec_shape k.natAbs
  have hpn := parseNumber_intDec k rest h
  by_cases hk : k < 0
  · have hdata : (intDec k).data = '-' :: (d :: ds) := by
      unfold intDec
      rw [if_pos hk, String.data_append, hsh]
      rfl
    rw [hdata] at hpn ⊢
    rw [List.cons_append, parseValue]
    rw [if_neg (by decide), if_neg (by decide), ← List.cons_append, hpn]
    rfl
  · have hdata : (intDec k).data = d :: ds := by
      unfold intDec
      rw [if_neg hk, String.data_append, hsh]
      rfl
    obtain ⟨hq, hb⟩ := digit_ne_quote_brace d hdig
    rw [hdata] at hpn ⊢
    rw [List.cons_append, parseValue]
    rw [if_neg hq, if_neg hb, ← List.cons_append, hpn]
    rfl

theorem parseStringBody_plain_key :
    ∀ (kb : List Char), (∀ c ∈ kb, 32 ≤ c.toNat ∧ c ≠ '"' ∧ c ≠ '\\') →
    ∀ X, parseStringBody (kb ++ '"' :: X) = some (kb, X) := by
  intro kb hkb
  induction kb with
  | nil =>
    intro X
    rw [List.nil_append, parseStringBody]
    simp
  | cons c cs ih =>
    intro X
    obtain ⟨hge, hq, hb⟩ := hkb c (by simp)
    rw [List.cons_append, parseStringBody, if_neg hq, if_neg hb, if_neg (by omega)]
    rw [ih (fun c hc => hkb c (by simp [hc])) X]
    rfl

theorem headNotDigit_comma (X : List Char) : headNotDigit (',' :: X) := by
  show (',').isDigit = false
  decide

theorem headNotDigit_brace (X : List Char) : headNotDigit ('}' :: X) := by
  show ('}').isDigit = false
  decide

theorem parse_jsonModal (f : ℕ) (m : NormalizedModal) (rest : List Char) :
    parseValue (f + 5) (jsonModal m ++ rest) =
      some (.obj [("c", .int m.C), ("f", .int m.F), ("m", .int m.M)], rest) := by
  have d1 : ("\x7b\"c\":").data = ['{', '"', 'c', '"', ':'] := rfl
  have d2 : (",\"f\":").data = [',', '"', 'f', '"', ':'] := rfl
  have d3 : (",\"m\":").data = [',', '"', 'm', '"', ':'] := rfl
  rw [jsonModal, d1, d2, d3]
  simp only [List.cons_append, List.append_assoc, List.nil_append, List.singleton_append]
  rw [show f + 5 = (f + 4) + 1 from rfl, parseValue, if_neg (by decide), if_pos rfl]
  rw [List.head?_cons, if_neg (by decide)]
  rw [show f + 4 = (f + 3) + 1 from rfl, parseMembers, if_pos rfl]
  rw [show ('c' :: '"' :: ':' :: ((intDec m.C).data ++ (',' :: '"' :: 'f' :: '"' :: ':' ::
    ((intDec m.F).data ++ (',' :: '"' :: 'm' :: '"' :: ':' ::
      ((intDec m.M).data ++ ('}' :: rest))))))) =
    (['c'] ++ '"' :: (':' :: ((intDec m.C).data ++ (',' :: '"' :: 'f' :: '"' :: ':' ::
    ((intDec m.F).data ++ (',' :: '"' :: 'm' :: '"' :: ':' ::
      ((intDec m.M).data ++ ('}' :: rest)))))))) from by simp]
  rw [parseStringBody_plain_key ['c'] (by decide)]
  dsimp only
  rw [List.head?_cons, if_pos rfl, List.tail_cons]
  rw [show f + 3 = (f + 2) + 1 from rfl,
    parseValue_intDec (f + 2) m.C _ (headNotDigit_comma _)]
  dsimp only
  rw [List.head?_cons, if_pos rfl, List.tail_cons]
  rw [show f + 3 = (f + 2) + 1 from rfl, parseMembers, if_pos rfl]
  rw [show ('f' :: '"' :: ':' :: ((intDec m.F).data ++ (',' :: '"' :: 'm' :: '"' :: ':' ::
      ((intDec m.M).data ++ ('}' :: rest))))) =
    (['f'] ++ '"' :: (':' :: ((intDec m.F).data ++ (',' :: '"' :: 'm' :: '"' :: ':' ::
      ((intDec m.M).data ++ ('}' :: rest)))))) from by simp]
  rw [parseStringBody_plain_key ['f'] (by decide)]
  dsimp only
  rw [List.head?_cons, if_pos rfl, List.tail_cons]
  rw [show f + 2 = (f + 1) + 1 from rfl,
    parseValue_intDec (f + 1) m.F _ (headNotDigit_comma _)]
  dsimp only
  rw [List.head?_cons, if_pos rfl, List.tail_cons]
  rw [show f + 2 = (f + 1) + 1 from rfl, parseMembers, if_pos rfl]
  rw [show ('m' :: '"' :: ':' :: ((intDec m.M).data ++ ('}' :: rest))) =
    (['m'] ++ '"' :: (':' :: ((intDec m.M).data ++ ('}' :: rest)))) from by simp]
  rw [parseStringBody_plain_key ['m'] (by decide)]
  dsimp only
  rw [List.head?_cons, if_pos rfl, List.tail_cons]
  rw [show f + 1 = f + 1 from rfl, parseValue_intDec f m.M _ (headNotDigit_brace _)]
  dsimp only
  rw [List.head?_cons, if_neg (by decide), if_pos rfl, List.tail_cons]
  rfl


/-- Parse an object whose member list starts with a quoted key. -/
theorem parseValue_obj (f : ℕ) (body X : List Char) (ms : List (String × Jv))
    (hm : parseMembers f ('"' :: body) = some (ms, X)) :
    parseValue (f + 1) ('{' :: '"' :: body) = some (.obj ms, X) := by
  rw [parseValue, if_neg (by decide), if_pos rfl, List.head?_cons, if_neg (by decide), hm]
  rfl

/-- Parse a non-final object member: plain key, value, then a comma. -/
theorem parseMembers_cons (f : ℕ) (kb vd r2 X : List Char) (v : Jv)
    (ms : List (String × Jv))
    (hkb : ∀ c ∈ kb, 32 ≤ c.toNat ∧ c ≠ '"' ∧ c ≠ '\\')
    (hv : parseValue f (vd ++ ',' :: r2) = some (v, ',' :: r2))
    (hm : parseMembers f r2 = some (ms, X)) :
    parseMembers (f + 1) ('"' :: (kb ++ '"' :: ':' :: (vd ++ ',' :: r2))) =
      some ((⟨kb⟩, v) :: ms, X) := by
  rw [parseMembers, if_pos rfl]
  rw [show kb ++ '"' :: ':' :: (vd ++ ',' :: r2) =
      kb ++ '"' :: (':' :: (vd ++ ',' :: r2)) from rfl]
  rw [parseStringBody_plain_key kb hkb]
  dsimp only
  rw [List.head?_cons, if_pos rfl, List.tail_cons, hv]
  dsimp only
  rw [List.head?_cons, if_pos rfl, List.tail_cons, hm]
  rfl

/-- Parse the final object member: plain key, value, then the closing brace. -/
theorem parseMembers_last (f : ℕ) (kb vd X : List Char) (v : Jv)
    (hkb : ∀ c ∈ kb, 32 ≤ c.toNat ∧ c ≠ '"' ∧ c ≠ '\\')
    (hv : parseValue f (vd ++ '}' :: X) = some (v, '}' :: X)) :
    parseMembers (f + 1) ('"' :: (kb ++ '"' :: ':' :: (vd ++ '}' :: X))) =
      some ([(⟨kb⟩, v)], X) := by
  rw [parseMembers, if_pos rfl]
  rw [show kb ++ '"' :: ':' :: (vd ++ '}' :: X) =
      kb ++ '"' :: (':' :: (vd ++ '}' :: X)) from rfl]
  rw [parseStringBody_plain_key kb hkb]
  dsimp only
  rw [List.head?_cons, if_pos rfl, List.tail_cons, hv]
  dsimp only
  rw [List.head?_cons, if_neg (by decide), if_pos rfl, List.tail_cons]

theorem parse_jsonCog (f : ℕ) (g : NormalizedCognition) (rest : List Char) :
    parseValue (f + 7) (jsonCog g ++ rest) =
      some (.obj [("F", .int g.F), ("C", .int g.C), ("V", .int g.V),
        ("S", .int g.S), ("Cr", .int g.Cr)], rest) := by
  have d1 : ("\x7b\"F\":").data = ['{', '"', 'F', '"', ':'] := rfl
  have d2 : (",\"C\":").data = [',', '"', 'C', '"', ':'] := rfl
  have d3 : (",\"V\":").data = [',', '"', 'V', '"', ':'] := rfl
  have d4 : (",\"S\":").data = [',', '"', 'S', '"', ':'] := rfl
  have d5 : (",\"Cr\":").data = [',', '"', 'C', 'r', '"', ':'] := rfl
  rw [jsonCog, d1, d2, d3, d4, d5]
  simp only [List.cons_append, List.append_assoc, List.nil_append, List.singleton_append]
  exact parseValue_obj (f + 6) _ _ _
    (parseMembers_cons (f + 5) ['F'] _ _ _ _ _ (by decide)
      (parseValue_intDec (f + 4) g.F _ (headNotDigit_comma _))
      (parseMembers_cons (f + 4) ['C'] _ _ _ _ _ (by decide)
        (parseValue_intDec (f + 3) g.C _ (headNotDigit_comma _))
        (parseMembers_cons (f + 3) ['V'] _ _ _ _ _ (by decide)
          (parseValue_intDec (f + 2) g.V _ (headNotDigit_comma _))
          (parseMembers_cons (f + 2) ['S'] _ _ _ _ _ (by decide)
            (parseValue_intDec (f + 1) g.S _ (headNotDigit_comma _))
            (parseMembers_last (f + 1) ['C', 'r'] _ _ _ (by decide)
              (parseValue_intDec f g.Cr _ (headNotDigit_brace _)))))))


theorem parse_jsonInt (f : ℕ) (i : NormalizedInteraction) (rest : List Char) :
    parseValue (f + 5) (jsonInt i ++ rest) =
      some (.obj [("PB", .str i.PB), ("SM", .str i.SM), ("TN", .str i.TN)], rest) := by
  have d1 : ("\x7b\"PB\":").data = ['{', '"', 'P', 'B', '"', ':'] := rfl
  have d2 : (",\"SM\":").data = [',', '"', 'S', 'M', '"', ':'] := rfl
  have d3 : (",\"TN\":").data = [',', '"', 'T', 'N', '"', ':'] := rfl
  rw [jsonInt, d1, d2, d3]
  simp only [List.cons_append, List.append_assoc, List.nil_append, List.singleton_append]
  exact parseValue_obj (f + 4) _ _ _
    (parseMembers_cons (f + 3) ['P', 'B'] _ _ _ _ _ (by decide)
      (parseValue_jsonString (f + 2) i.PB _)
      (parseMembers_cons (f + 2) ['S', 'M'] _ _ _ _ _ (by decide)
        (parseValue_jsonString (f + 1) i.SM _)
        (parseMembers_last (f + 1) ['T', 'N'] _ _ _ (by decide)
          (parseValue_jsonString f i.TN _))))

theorem parse_jsonNormalized (f : ℕ) (n : NormalizedProfile) (rest : List Char) :
    parseValue (f + 11) (jsonNormalized n ++ rest) =
      some (.obj [("element", .str n.Element),
        ("modal", .obj [("c", .int n.Modal.C), ("f", .int n.Modal.F), ("m", .int n.Modal.M)]),
        ("cog", .obj [("F", .int n.Cog.F), ("C", .int n.Cog.C), ("V", .int n.Cog.V),
          ("S", .int n.Cog.S), ("Cr", .int n.Cog.Cr)]),
        ("int", .obj [("PB", .str n.Int.PB), ("SM", .str n.Int.SM),
          ("TN", .str n.Int.TN)])], rest) := by
  have d1 : ("\x7b\"element\":").data = ['{', '"', 'e', 'l', 'e', 'm', 'e', 'n', 't', '"', ':'] := rfl
  have d2 : (",\"modal\":").data = [',', '"', 'm', 'o', 'd', 'a', 'l', '"', ':'] := rfl
  have d3 : (",\"cog\":").data = [',', '"', 'c', 'o', 'g', '"', ':'] := rfl
  have d4 : (",\"int\":").data = [',', '"', 'i', 'n', 't', '"', ':'] := rfl
  rw [jsonNormalized, d1, d2, d3, d4]
  simp only [List.cons_append, List.append_assoc, List.nil_append, List.singleton_append]
  exact parseValue_obj (f + 10) _ _ _
    (parseMembers_cons (f + 9) ['e', 'l', 'e', 'm', 'e', 'n', 't'] _ _ _ _ _ (by decide)
      (parseValue_jsonString (f + 8) n.Element _)
      (parseMembers_cons (f + 8) ['m', 'o', 'd', 'a', 'l'] _ _ _ _ _ (by decide)
        (parse_jsonModal (f + 3) n.Modal _)
        (parseMembers_cons (f + 7) ['c', 'o', 'g'] _ _ _ _ _ (by decide)
          (parse_jsonCog f n.Cog _)
          (parseMembers_last (f + 6) ['i', 'n', 't'] _ _ _ (by decide)
            (parse_jsonInt (f + 1) n.Int _)))))

theorem parse_jsonU4 (f : ℕ) (n : NormalizedProfile) (chip : String) (rest : List Char) :
    parseValue (f + 14) (jsonU4 n chip ++ rest) =
      some (.obj [("chip", .str chip),
        ("profile", .obj [("element", .str n.Element),
          ("modal", .obj [("c", .int n.Modal.C), ("f", .int n.Modal.F), ("m", .int n.Modal.M)]),
          ("cog", .obj [("F", .int n.Cog.F), ("C", .int n.Cog.C), ("V", .int n.Cog.V),
            ("S", .int n.Cog.S), ("Cr", .int n.Cog.Cr)]),
          ("int", .obj [("PB", .str n.Int.PB), ("SM", .str n.Int.SM),
            ("TN", .str n.Int.TN)])])], rest) := by
  have d1 : ("\x7b\"chip\":").data = ['{', '"', 'c', 'h', 'i', 'p', '"', ':'] := rfl
  have d2 : (",\"profile\":").data = [',', '"', 'p', 'r', 'o', 'f', 'i', 'l', 'e', '"', ':'] := rfl
  rw [jsonU4, d1, d2]
  simp only [List.cons_append, List.append_assoc, List.nil_append, List.singleton_append]
  exact parseValue_obj (f + 13) _ _ _
    (parseMembers_cons (f + 12) ['c', 'h', 'i', 'p'] _ _ _ _ _ (by decide)
      (parseValue_jsonString (f + 11) chip _)
      (parseMembers_last (f + 11) ['p', 'r', 'o', 'f', 'i', 'l', 'e'] _ _ _ (by decide)
        (parse_jsonNormalized f n _)))


/-! ## `EncodeU4` / `DecodeU4` (`internal/hcs/codec_u4.go`) -/

/-- Field lookup in a decoded JSON object.  Go `json.Unmarshal` keeps the
last occurrence of a duplicated key, hence the left fold. -/
def jvLookup (fields : List (String × Jv)) (k : String) : Option Jv :=
  fields.foldl (fun acc p => if p.1 = k then some p.2 else acc) none

/-- Unmarshal a string struct field: a missing key keeps the zero value
`""`; a present key of the wrong type is an unmarshal error. -/
def jvGetStr (fields : List (String × Jv)) (k : String) : Option String :=
  match jvLookup fields k with
  | none => some ""
  | some (.str s) => some s
  | some _ => none

/-- Unmarshal an integer struct field (zero value `0`). -/
def jvGetInt (fields : List (String × Jv)) (k : String) : Option ℤ :=
  match jvLookup fields k with
  | none => some 0
  | some (.int n) => some n
  | some _ => none

/-- Unmarshal an embedded struct field: a missing key keeps the zero
struct, i.e. behaves like an empty object. -/
def jvGetObj (fields : List (String × Jv)) (k : String) :
    Option (List (String × Jv)) :=
  match jvLookup fields k with
  | none => some []
  | some (.obj fs) => some fs
  | some _ => none

/-- Unmarshal a `NormalizedModal` from the fields of a JSON object. -/
def decodeModalFields (fs : List (String × Jv)) : Option NormalizedModal :=
  match jvGetInt fs "c", jvGetInt fs "f", jvGetInt fs "m" with
  | some c, some f, some m => some ⟨c, f, m⟩
  | _, _, _ => none

/-- Unmarshal a `NormalizedCognition` from the fields of a JSON object. -/
def decodeCogFields (fs : List (String × Jv)) : Option NormalizedCognition :=
  match jvGetInt fs "F", jvGetInt fs "C", jvGetInt fs "V",
      jvGetInt fs "S", jvGetInt fs "Cr" with
  | some f, some c, some v, some s, some cr => some ⟨f, c, v, s, cr⟩
  | _, _, _, _, _ => none

/-- Unmarshal a `NormalizedInteraction` from the fields of a JSON object. -/
def decodeIntFields (fs : List (String × Jv)) : Option NormalizedInteraction :=
  match jvGetStr fs "PB", jvGetStr fs "SM", jvGetStr fs "TN" with
  | some pb, some sm, some tn => some ⟨pb, sm, tn⟩
  | _, _, _ => none

/-- Unmarshal a `NormalizedProfile` from the fields of a JSON object. -/
def decodeNormalizedFields (fs : List (String × Jv)) : Option NormalizedProfile :=
  match jvGetStr fs "element", jvGetObj fs "modal", jvGetObj fs "cog",
      jvGetObj fs "int" with
  | some el, some mf, some gf, some itf =>
    match decodeModalFields mf, decodeCogFields gf, decodeIntFields itf with
    | some m, some g, some it => some ⟨el, m, g, it⟩
    | _, _, _ => none
  | _, _, _, _ => none

/-- Unmarshal `DecodeU4`'s anonymous struct
`{ Profile *NormalizedProfile; Chip string }`: the pointer field is `none`
when the key is absent (Go leaves the pointer nil). -/
def decodeU4Fields (fs : List (String × Jv)) :
    Option (Option NormalizedProfile × String) :=
  match jvGetStr fs "chip" with
  | none => none
  | some chip =>
    match jvLookup fs "profile" with
    | none => some (none, chip)
    | some (.obj pfs) =>
      match decodeNormalizedFields pfs with
      | some p => some (some p, chip)
      | none => none
    | some _ => none

/-- `EncodeU4`: marshal `{"chip": chip, "profile": normalized}` to JSON,
UTF-8-encode, base64url-encode without padding, and prefix `HCS-U4|`.
(The Go function returns `(string, error)`; `json.Marshal` cannot fail on
this value, so the error branch is dead.) -/
def EncodeU4 (normalized : NormalizedProfile) (chip : String) : String :=
  "HCS-U4|" ++ ⟨b64Encode (utf8Bytes (jsonU4 normalized chip))⟩

/-- `DecodeU4`: check the `HCS-U4|` prefix, base64url-decode, and
unmarshal the JSON document.  The prefix test `take 7 = "HCS-U4|".data`
also covers Go's `len(code) < 7` test.  The parser fuel `length + 1`
cannot run out: every mutual call consumes at least one character. -/
def DecodeU4 (code : String) : Option (Option NormalizedProfile × String) :=
  if code.data.take 7 = ("HCS-U4|").data then
    match b64Decode (code.data.drop 7) with
    | none => none
    | some bytes =>
      match utf8DecodeBytes bytes with
      | none => none
      | some chars =>
        match parseValue (chars.length + 1) chars with
        | some (.obj fs, []) => decodeU4Fields fs
        | _ => none
  else none

theorem jsonU4_length (n : NormalizedProfile) (chip : String) :
    13 ≤ (jsonU4 n chip).length := by
  have h8 : (("\x7b\"chip\":").data).length = 8 := rfl
  have h12 : ((",\"profile\":").data).length = 11 := rfl
  rw [jsonU4]
  simp only [List.length_append, h8, h12]
  omega

/-- C9: the U4 codec round-trips. -/
theorem claim_C9_u4_roundtrip (n : NormalizedProfile) (chip : String) :
    DecodeU4 (EncodeU4 n chip) = some (some n, chip) := by
  have hdata : (EncodeU4 n chip).data =
      ("HCS-U4|").data ++ b64Encode (utf8Bytes (jsonU4 n chip)) := by
    rw [EncodeU4, String.data_append]
  rw [DecodeU4, hdata]
  rw [List.take_left' (show (("HCS-U4|").data).length = 7 by decide), if_pos rfl,
    List.drop_left' (show (("HCS-U4|").data).length = 7 by decide)]
  rw [b64_roundtrip _ (utf8Bytes_lt_256 _)]
  dsimp only
  rw [utf8_roundtrip]
  dsimp only
  have hlen := jsonU4_length n chip
  rw [show (jsonU4 n chip).length + 1 = ((jsonU4 n chip).length - 13) + 14 from by omega]
  have hp := parse_jsonU4 ((jsonU4 n chip).length - 13) n chip []
  rw [List.append_nil] at hp
  rw [hp]
  dsimp only
  simp [decodeU4Fields, decodeNormalizedFields, decodeModalFields, decodeCogFields,
    decodeIntFields, jvGetStr, jvGetInt, jvGetObj, jvLookup]

/-! ## SHA-256 (`crypto/sha256`, FIPS 180-4)

Bytes are natural numbers below 256, 32-bit words natural numbers below
`2^32`; every arithmetic step reduces modulo `2^32` exactly where the
machine word overflows. -/

/-- 32-bit right rotation. -/
def rotr32 (n x : ℕ) : ℕ := (x / 2 ^ n + x % 2 ^ n * 2 ^ (32 - n)) % 2 ^ 32

/-- 32-bit addition. -/
def add32 (a b : ℕ) : ℕ := (a + b) % 2 ^ 32

/-- Bitwise complement within 32 bits. -/
def not32 (x : ℕ) : ℕ := 2 ^ 32 - 1 - x % 2 ^ 32

/-- The SHA-256 round constants. -/
def sha256K : List ℕ :=
  [1116352408, 1899447441, 3049323471, 3921009573, 961987163, 1508970993,
   2453635748, 2870763221, 3624381080, 310598401, 607225278, 1426881987,
   1925078388, 2162078206, 2614888103, 3248222580, 3835390401, 4022224774,
   264347078, 604807628, 770255983, 1249150122, 1555081692, 1996064986,
   2554220882, 2821834349, 2952996808, 3210313671, 3336571891, 3584528711,
   113926993, 338241895, 666307205, 773529912, 1294757372, 1396182291,
   1695183700, 1986661051, 2177026350, 2456956037, 2730485921, 2820302411,
   3259730800, 3345764771, 3516065817, 3600352804, 4094571909, 275423344,
   430227734, 506948616, 659060556, 883997877, 958139571, 1322822218,
   1537002063, 1747873779, 1955562222, 2024104815, 2227730452, 2361852424,
   2428436474, 2756734187, 3204031479, 3329325298]

/-- The SHA-256 initial hash value. -/
def sha256IV : List ℕ :=
  [1779033703, 3144134277, 1013904242, 2773480762,
   1359893119, 2600822924, 528734635, 1541459225]

/-- SHA-256 padding: `0x80`, zeros, and the 64-bit big-endian bit length. -/
def sha256Pad (msg : List ℕ) : List ℕ :=
  let l := msg.length
  let zeros := (64 - (l + 9) % 64) % 64
  msg ++ 0x80 :: List.replicate zeros 0 ++
    (List.range 8).map (fun i => 8 * l / 2 ^ (8 * (7 - i)) % 256)

/-- Split a byte list into 64-byte blocks of big-endian 32-bit words. -/
def sha256Blocks (pad : List ℕ) : List (List ℕ) :=
  (List.range (pad.length / 64)).map fun b =>
    (List.range 16).map fun w =>
      ((pad.drop (64 * b + 4 * w)).take 4).foldl (fun acc x => acc * 256 + x) 0

/-- Extend 16 message words to the 64-entry SHA-256 schedule. -/
def sha256Schedule (w16 : List ℕ) : List ℕ :=
  (List.range 48).foldl
    (fun w _ =>
      let t := w.length
      let w15 := w.getD (t - 15) 0
      let w2 := w.getD (t - 2) 0
      let s0 := (rotr32 7 w15) ^^^ (rotr32 18 w15) ^^^ (w15 / 2 ^ 3)
      let s1 := (rotr32 17 w2) ^^^ (rotr32 19 w2) ^^^ (w2 / 2 ^ 10)
      w ++ [(w.getD (t - 16) 0 + s0 + w.getD (t - 7) 0 + s1) % 2 ^ 32])
    w16

/-- One SHA-256 compression step. -/
def sha256Round (st : List ℕ) (kw : ℕ) : List ℕ :=
  let a := st.getD 0 0
  let b := st.getD 1 0
  let c := st.getD 2 0
  let d := st.getD 3 0
  let e := st.getD 4 0
  let f := st.getD 5 0
  let g := st.getD 6 0
  let h := st.getD 7 0
  let s1 := (rotr32 6 e) ^^^ (rotr32 11 e) ^^^ (rotr32 25 e)
  let ch := (e &&& f) ^^^ (not32 e &&& g)
  let t1 := (h + s1 + ch + kw) % 2 ^ 32
  let s0 := (rotr32 2 a) ^^^ (rotr32 13 a) ^^^ (rotr32 22 a)
  let mj := (a &&& b) ^^^ (a &&& c) ^^^ (b &&& c)
  let t2 := add32 s0 mj
  [add32 t1 t2, a, b, c, add32 d t1, e, f, g]

/-- Compress one block into the running hash value. -/
def sha256Compress (hv : List ℕ) (w16 : List ℕ) : List ℕ :=
  let w := sha256Schedule w16
  let st := (List.range 64).foldl
    (fun st t => sha256Round st ((sha256K.getD t 0 + w.getD t 0) % 2 ^ 32)) hv
  (List.range 8).map fun i => add32 (hv.getD i 0) (st.getD i 0)

/-- `sha256.Sum256`: the 32-byte SHA-256 digest. -/
def sha256 (msg : List ℕ) : List ℕ :=
  let hv := (sha256Blocks (sha256Pad msg)).foldl sha256Compress sha256IV
  (List.range 32).map fun i => hv.getD (i / 4) 0 / 2 ^ (8 * (3 - i % 4)) % 256

theorem sha256_abc :
    sha256 [97, 98, 99] =
      [186, 120, 22, 191, 143, 1, 207, 234, 65, 65, 64, 222,
       93, 174, 34, 35, 176, 3, 97, 163, 150, 23, 122, 156,
       180, 16, 255, 97, 242, 0, 21, 173] := by decide



/-! ## SHA3-256 (`golang.org/x/crypto/sha3`, FIPS 202)

The Keccak-f[1600] state is a list of 25 lanes of 64 bits, lane `x + 5*y`
holding bit plane `(x, y)`; bytes enter and leave the lanes little-endian. -/

/-- 64-bit left rotation. -/
def rotl64 (n x : ℕ) : ℕ := x % 2 ^ (64 - n) * 2 ^ n + x / 2 ^ (64 - n)

/-- Bitwise complement within 64 bits. -/
def not64 (x : ℕ) : ℕ := x ^^^ (2 ^ 64 - 1)

/-- Keccak round constants. -/
def keccakRC : List ℕ :=
  [1, 32898, 9223372036854808714,
   9223372039002292224, 32907, 2147483649,
   9223372039002292353, 9223372036854808585, 138,
   136, 2147516425, 2147483658,
   2147516555, 9223372036854775947, 9223372036854808713,
   9223372036854808579, 9223372036854808578, 9223372036854775936,
   32778, 9223372039002259466, 9223372039002292353,
   9223372036854808704, 2147483649, 9223372039002292232]

/-- One Keccak round, unrolled over the 25 lanes (as in
`golang.org/x/crypto/sha3`'s `keccakF1600`). -/
def keccakRound (st : List ℕ) (rc : ℕ) : List ℕ :=
  match st with
  | [a0, a1, a2, a3, a4, a5, a6, a7, a8, a9, a10, a11, a12, a13, a14, a15, a16, a17, a18, a19, a20, a21, a22, a23, a24] =>
    let c0 := a0 ^^^ a5 ^^^ a10 ^^^ a15 ^^^ a20
    let c1 := a1 ^^^ a6 ^^^ a11 ^^^ a16 ^^^ a21
    let c2 := a2 ^^^ a7 ^^^ a12 ^^^ a17 ^^^ a22
    let c3 := a3 ^^^ a8 ^^^ a13 ^^^ a18 ^^^ a23
    let c4 := a4 ^^^ a9 ^^^ a14 ^^^ a19 ^^^ a24
    let d0 := c4 ^^^ rotl64 1 c1
    let d1 := c0 ^^^ rotl64 1 c2
    let d2 := c1 ^^^ rotl64 1 c3
    let d3 := c2 ^^^ rotl64 1 c4
    let d4 := c3 ^^^ rotl64 1 c0
    let t0 := a0 ^^^ d0
    let t1 := a1 ^^^ d1
    let t2 := a2 ^^^ d2
    let t3 := a3 ^^^ d3
    let t4 := a4 ^^^ d4
    let t5 := a5 ^^^ d0
    let t6 := a6 ^^^ d1
    let t7 := a7 ^^^ d2
    let t8 := a8 ^^^ d3
    let t9 := a9 ^^^ d4
    let t10 := a10 ^^^ d0
    let t11 := a11 ^^^ d1
    let t12 := a12 ^^^ d2
    let t13 := a13 ^^^ d3
    let t14 := a14 ^^^ d4
    let t15 := a15 ^^^ d0
    let t16 := a16 ^^^ d1
    let t17 := a17 ^^^ d2
    let t18 := a18 ^^^ d3
    let t19 := a19 ^^^ d4
    let t20 := a20 ^^^ d0
    let t21 := a21 ^^^ d1
    let t22 := a22 ^^^ d2
    let t23 := a23 ^^^ d3
    let t24 := a24 ^^^ d4
    let b0 := rotl64 0 t0
    let b1 := rotl64 44 t6
    let b2 := rotl64 43 t12
    let b3 := rotl64 21 t18
    let b4 := rotl64 14 t24
    let b5 := rotl64 28 t3
    let b6 := rotl64 20 t9
    let b7 := rotl64 3 t10
    let b8 := rotl64 45 t16
    let b9 := rotl64 61 t22
    let b10 := rotl64 1 t1
    let b11 := rotl64 6 t7
    let b12 := rotl64 25 t13
    let b13 := rotl64 8 t19
    let b14 := rotl64 18 t20
    let b15 := rotl64 27 t4
    let b16 := rotl64 36 t5
    let b17 := rotl64 10 t11
    let b18 := rotl64 15 t17
    let b19 := rotl64 56 t23
    let b20 := rotl64 62 t2
    let b21 := rotl64 55 t8
    let b22 := rotl64 39 t14
    let b23 := rotl64 41 t15
    let b24 := rotl64 2 t21
    [(b0 ^^^ (not64 b1 &&& b2)) ^^^ rc,
     b1 ^^^ (not64 b2 &&& b3),
     b2 ^^^ (not64 b3 &&& b4),
     b3 ^^^ (not64 b4 &&& b0),
     b4 ^^^ (not64 b0 &&& b1),
     b5 ^^^ (not64 b6 &&& b7),
     b6 ^^^ (not64 b7 &&& b8),
     b7 ^^^ (not64 b8 &&& b9),
     b8 ^^^ (not64 b9 &&& b5),
     b9 ^^^ (not64 b5 &&& b6),
     b10 ^^^ (not64 b11 &&& b12),
     b11 ^^^ (not64 b12 &&& b13),
     b12 ^^^ (not64 b13 &&& b14),
     b13 ^^^ (not64 b14 &&& b10),
     b14 ^^^ (not64 b10 &&& b11),
     b15 ^^^ (not64 b16 &&& b17),
     b16 ^^^ (not64 b17 &&& b18),
     b17 ^^^ (not64 b18 &&& b19),
     b18 ^^^ (not64 b19 &&& b15),
     b19 ^^^ (not64 b15 &&& b16),
     b20 ^^^ (not64 b21 &&& b22),
     b21 ^^^ (not64 b22 &&& b23),
     b22 ^^^ (not64 b23 &&& b24),
     b23 ^^^ (not64 b24 &&& b20),
     b24 ^^^ (not64 b20 &&& b21)]
  | _ => st

/-- The full Keccak-f[1600] permutation (24 rounds). -/
def keccakP (st : List ℕ) : List ℕ :=
  (List.range 24).foldl (fun st i => keccakRound st (keccakRC.getD i 0)) st

/-- SHA-3 padding: domain byte `0x06`, zero fill, final bit `0x80`, to a
multiple of the 136-byte rate. -/
def sha3Pad (msg : List ℕ) : List ℕ :=
  let q := 136 - msg.length % 136
  if q = 1 then msg ++ [0x86]
  else msg ++ 0x06 :: List.replicate (q - 2) 0 ++ [0x80]

/-- Absorb one 136-byte block into the sponge state. -/
def sha3Absorb (st block : List ℕ) : List ℕ :=
  let lanes := (List.range 17).map fun w =>
    ((block.drop (8 * w)).take 8).foldr (fun b acc => acc * 256 + b) 0
  keccakP ((List.range 25).map fun i =>
    st.getD i 0 ^^^ (if i < 17 then lanes.getD i 0 else 0))

/-- `sha3.New256` digest: the 32-byte SHA3-256 hash. -/
def sha3_256 (msg : List ℕ) : List ℕ :=
  let p := sha3Pad msg
  let st := (List.range (p.length / 136)).foldl
    (fun st b => sha3Absorb st ((p.drop (136 * b)).take 136))
    (List.replicate 25 0)
  (List.range 32).map fun i => st.getD (i / 8) 0 / 2 ^ (8 * (i % 8)) % 256

/-- `hmac.New(sha3.New256, key)` over `msg`: HMAC with the 136-byte
SHA3-256 block size. -/
def hmacSha3 (key msg : List ℕ) : List ℕ :=
  let k0 := if 136 < key.length then sha3_256 key else key
  let kp := k0 ++ List.replicate (136 - k0.length) 0
  sha3_256 (kp.map (· ^^^ 0x5c) ++ sha3_256 (kp.map (· ^^^ 0x36) ++ msg))

set_option maxHeartbeats 4000000

theorem sha3_256_empty :
    sha3_256 [] =
      [167, 255, 198, 248, 191, 30, 215, 102, 81, 193, 71, 86,
       160, 97, 214, 98, 245, 128, 255, 77, 228, 59, 73, 250,
       130, 216, 10, 75, 128, 248, 67, 74] := by decide

theorem sha3_256_abc :
    sha3_256 [97, 98, 99] =
      [58, 152, 93, 167, 79, 226, 37, 178, 4, 92, 23, 45,
       107, 211, 144, 189, 133, 95, 8, 110, 62, 157, 82, 91,
       70, 191, 226, 69, 17, 67, 21, 50] := by decide



/-! ## BLAKE3 (`github.com/zeebo/blake3`, default 256-bit output)

Every input this repository feeds to BLAKE3 (a 32-byte derived key plus a
canonical JSON document of a few hundred bytes) fits in one 1024-byte
chunk, so the hash tree is a single root leaf: the embedding implements
exactly that case.  The initial value equals the SHA-256 one; words are
little-endian. -/

/-- The BLAKE3 message permutation. -/
def blake3Perm : List ℕ := [2, 6, 3, 10, 7, 0, 4, 13, 1, 11, 12, 5, 9, 14, 15, 8]

/-- The BLAKE3 quarter-round on state positions `a b c d` with message
words `mx my`. -/
def b3g (st : List ℕ) (a b c d mx my : ℕ) : List ℕ :=
  let sa := (st.getD a 0 + st.getD b 0 + mx) % 2 ^ 32
  let sd := rotr32 16 ((st.getD d 0) ^^^ sa)
  let sc := (st.getD c 0 + sd) % 2 ^ 32
  let sb := rotr32 12 ((st.getD b 0) ^^^ sc)
  let sa2 := (sa + sb + my) % 2 ^ 32
  let sd2 := rotr32 8 (sd ^^^ sa2)
  let sc2 := (sc + sd2) % 2 ^ 32
  let sb2 := rotr32 7 (sb ^^^ sc2)
  (((st.set a sa2).set b sb2).set c sc2).set d sd2

/-- One BLAKE3 round: column step then diagonal step. -/
def b3round (st m : List ℕ) : List ℕ :=
  let st := b3g st 0 4 8 12 (m.getD 0 0) (m.getD 1 0)
  let st := b3g st 1 5 9 13 (m.getD 2 0) (m.getD 3 0)
  let st := b3g st 2 6 10 14 (m.getD 4 0) (m.getD 5 0)
  let st := b3g st 3 7 11 15 (m.getD 6 0) (m.getD 7 0)
  let st := b3g st 0 5 10 15 (m.getD 8 0) (m.getD 9 0)
  let st := b3g st 1 6 11 12 (m.getD 10 0) (m.getD 11 0)
  let st := b3g st 2 7 8 13 (m.getD 12 0) (m.getD 13 0)
  b3g st 3 4 9 14 (m.getD 14 0) (m.getD 15 0)

/-- The BLAKE3 compression function (first 8 output words). -/
def b3compress (cv m : List ℕ) (t b d : ℕ) : List ℕ :=
  let st0 := (List.range 8).map (fun i => cv.getD i 0) ++
    [1779033703, 3144134277, 1013904242, 2773480762, t % 2 ^ 32, t / 2 ^ 32, b, d]
  let p := (List.range 7).foldl
    (fun (p : List ℕ × List ℕ) _ =>
      (b3round p.1 p.2, blake3Perm.map fun i => p.2.getD i 0))
    (st0, m)
  (List.range 8).map fun i => p.1.getD i 0 ^^^ p.1.getD (i + 8) 0

/-- The 16 little-endian message words of 64-byte block `i` (reading past
the end pads with zeros, as the short final block requires). -/
def b3block (msg : List ℕ) (i : ℕ) : List ℕ :=
  (List.range 16).map fun j =>
    ((msg.drop (64 * i + 4 * j)).take 4).foldr (fun b acc => acc * 256 + b) 0

/-- `blake3.New().Sum(nil)` for single-chunk input: chain the chunk's
blocks with `CHUNK_START` (1) on the first and `CHUNK_END | ROOT`
(2 + 8) on the last, counter 0 throughout. -/
def blake3_256 (msg : List ℕ) : List ℕ :=
  let nb := max 1 ((msg.length + 63) / 64)
  let cv := (List.range (nb - 1)).foldl
    (fun cv i => b3compress cv (b3block msg i) 0 64 (if i = 0 then 1 else 0))
    [1779033703, 3144134277, 1013904242, 2773480762,
     1359893119, 2600822924, 528734635, 1541459225]
  let bl := msg.length - 64 * (nb - 1)
  let out := b3compress cv (b3block msg (nb - 1)) 0 bl
    ((if nb = 1 then 1 else 0) + 2 + 8)
  (List.range 32).map fun i => out.getD (i / 4) 0 / 2 ^ (8 * (i % 4)) % 256

theorem blake3_256_empty :
    blake3_256 [] =
      [175, 19, 73, 185, 245, 249, 161, 166, 160, 64, 77, 234,
       54, 220, 201, 73, 155, 203, 37, 201, 173, 193, 18, 183,
       204, 154, 147, 202, 228, 31, 50, 98] := by decide

theorem blake3_256_abc :
    blake3_256 [97, 98, 99] =
      [100, 55, 179, 172, 56, 70, 81, 51, 255, 182, 59, 117,
       39, 58, 141, 181, 72, 197, 88, 70, 93, 121, 219, 3,
       253, 53, 156, 108, 213, 189, 157, 133] := by decide


/-! ## CHIP, quantum signatures and the U7 code
(`internal/hcs/codec_u7.go`, `chinese.go`) -/

/-- `hex.EncodeToString`: lowercase hex of a byte list. -/
def hexEncode (l : List ℕ) : List Char :=
  (l.map fun b => [hexDigitChar (b / 16), hexDigitChar (b % 16)]).flatten

/-- `GenerateCHIP`: SHA-256 of salt plus the canonical normalized-profile
JSON, truncated to the first 12 hex characters.  (`json.Marshal` cannot
fail on this value, so the Go error branch is dead.) -/
def GenerateCHIP (salt : List ℕ) (normalized : NormalizedProfile) : String :=
  ⟨(hexEncode (sha256 (salt ++ utf8Bytes (jsonNormalized normalized)))).take 12⟩

/-- `ComputeQuantumSignatures`: derive a key by HMAC-SHA3-256 of the salt
under the secret, then return the hex HMAC-SHA3-256 of the canonical data
under the derived key and the hex BLAKE3 digest of derived key plus
canonical data.  Fails exactly when the secret is empty. -/
def ComputeQuantumSignatures (canonical secret salt : List ℕ) :
    Option (String × String) :=
  if secret = [] then none
  else
    let derivedKey := hmacSha3 secret salt
    some (⟨hexEncode (hmacSha3 derivedKey canonical)⟩,
      ⟨hexEncode (blake3_256 (derivedKey ++ canonical))⟩)

/-- `FormatHCSU7`: assemble the U7 code from the normalized profile and
the two hex signatures, truncating them to 24 and 32 characters inline.
Fails when either signature is empty (the nil-profile check of the Go
function cannot arise in the model). -/
def FormatHCSU7 (profile : NormalizedProfile) (qsigHex b3Hex : String) :
    Option String :=
  if qsigHex.data.length = 0 ∨ b3Hex.data.length = 0 then none
  else
    let elemSegment := "E:" ++ profile.Element
    let modalSegment := "MOD:c" ++ pad2 profile.Modal.C ++ "f" ++
      pad2 profile.Modal.F ++ "m" ++ pad2 profile.Modal.M
    let cogSegment := "COG:F" ++ pad2 profile.Cog.F ++ "C" ++ pad2 profile.Cog.C ++
      "V" ++ pad2 profile.Cog.V ++ "S" ++ pad2 profile.Cog.S ++ "Cr" ++
      pad2 profile.Cog.Cr
    let intSegment := "INT:PB=" ++ profile.Int.PB ++ ",SM=" ++ profile.Int.SM ++
      ",TN=" ++ profile.Int.TN
    let qsigInline := if 24 < qsigHex.data.length then (⟨qsigHex.data.take 24⟩ : String) else qsigHex
    let b3Inline := if 32 < b3Hex.data.length then (⟨b3Hex.data.take 32⟩ : String) else b3Hex
    some ("HCS-U7|V:7.0|ALG:QS|" ++ elemSegment ++ "|" ++ modalSegment ++ "|" ++
      cogSegment ++ "|" ++ intSegment ++ "|QSIG:" ++ qsigInline ++ "|B3:" ++ b3Inline)

/-! ## Claim C3: secret sensitivity of the quantum signatures -/

theorem sha3_256_byte_lt (m : List ℕ) : ∀ b ∈ sha3_256 m, b < 256 := by
  intro b hb
  simp only [sha3_256, List.mem_map, List.mem_range] at hb
  obtain ⟨i, _, rfl⟩ := hb
  exact Nat.mod_lt _ (by norm_num)

theorem sha3_256_getD_lt (m : List ℕ) (i : ℕ) : (sha3_256 m).getD i 0 < 256 := by
  rcases lt_or_ge i (sha3_256 m).length with h | h
  · rw [List.getD_eq_getElem _ _ h]
    exact sha3_256_byte_lt m _ (List.getElem_mem h)
  · rw [List.getD_eq_default _ _ h]
    norm_num

theorem sha3_256_length (m : List ℕ) : (sha3_256 m).length = 32 := by
  simp [sha3_256]

/-- The normalized form of the test input profile. -/
def testNormalizedProfile : NormalizedProfile := NormalizeProfile testInputProfile

/-- The canonical profile data of the test input profile (no combined
profile): `{"normalized":<canonical JSON>}`, UTF-8 encoded. -/
def testCanonical : List ℕ :=
  utf8Bytes (("\x7b\"normalized\":").data ++ jsonNormalized testNormalizedProfile ++ ['}'])

/-- C3: the claim quantifies over all pairs of distinct non-empty secrets
and asserts that the primary signature always differs.  This is false:
infinitely many secrets feed a 32-byte derived key, so by pigeonhole two
distinct non-empty secrets share the derived key, and then the signatures,
digests and U7 codes all coincide. -/
theorem claim_C3_counterexample :
    ¬ (∀ (salt canonical : List ℕ) (n : NormalizedProfile) (s1 s2 : List ℕ),
        s1 ≠ [] → s2 ≠ [] → s1 ≠ s2 →
        ∃ q1 b1 q2 b2 u1 u2,
          ComputeQuantumSignatures canonical s1 salt = some (q1, b1) ∧
          ComputeQuantumSignatures canonical s2 salt = some (q2, b2) ∧
          FormatHCSU7 n q1 b1 = some u1 ∧
          FormatHCSU7 n q2 b2 = some u2 ∧
          GenerateCHIP salt n = GenerateCHIP salt n ∧
          q1 ≠ q2 ∧ b1 ≠ b2 ∧ u1 ≠ u2) := by
  intro h
  have hinj : Function.Injective
      (fun k : ℕ => (⟨List.replicate (k + 1) 0, by simp⟩ : {l : List ℕ // l ≠ []})) := by
    intro a b hab
    simpa using congrArg (fun s => s.1.length) hab
  haveI : Infinite {l : List ℕ // l ≠ []} := Infinite.of_injective _ hinj
  obtain ⟨s1, s2, hne, heq⟩ := Finite.exists_ne_map_eq_of_infinite
    (fun (s : {l : List ℕ // l ≠ []}) => fun (i : Fin 32) =>
      (⟨(hmacSha3 s.1 []).getD i 0, sha3_256_getD_lt _ _⟩ : Fin 256))
  have hdk : hmacSha3 s1.1 [] = hmacSha3 s2.1 [] := by
    apply List.ext_getElem
    · exact (sha3_256_length _).trans (sha3_256_length _).symm
    · intro i h1 h2
      have h32 : i < 32 := lt_of_lt_of_le h1 (le_of_eq (sha3_256_length _))
      have := congrFun heq ⟨i, h32⟩
      rw [Fin.mk.injEq] at this
      rw [← List.getD_eq_getElem _ 0 h1, ← List.getD_eq_getElem _ 0 h2]
      exact this
  obtain ⟨q1, b1, q2, b2, u1, u2, hc1, hc2, _, _, _, hq, _, _⟩ :=
    h [] [] ⟨"A", ⟨31, 23, 46⟩, ⟨52, 13, 53, 15, 33⟩, ⟨"B", "M", "P"⟩⟩
      s1.1 s2.1 s1.2 s2.2 (fun hv => hne (Subtype.ext hv))
  rw [ComputeQuantumSignatures, if_neg s1.2] at hc1
  rw [ComputeQuantumSignatures, if_neg s2.2] at hc2
  rw [Option.some.injEq, Prod.mk.injEq] at hc1 hc2
  exact hq (hc1.1 ▸ hc2.1 ▸ (by rw [hdk]))

/-- C3 (amended): the CHIP is computed from salt and normalized profile
only, so it is identical under any two secrets; the signatures, secondary
digest and U7 code depend on the secret only through the derived
HMAC-SHA3-256 key, and for the concrete distinct secrets `01` and `02`
with empty salt and the test profile they do differ, while the CHIP is the
same. -/
theorem claim_C3_secret_sensitivity :
    (∀ (salt canonical s1 s2 : List ℕ), s1 ≠ [] → s2 ≠ [] →
      hmacSha3 s1 salt = hmacSha3 s2 salt →
      ComputeQuantumSignatures canonical s1 salt =
        ComputeQuantumSignatures canonical s2 salt) ∧
    (ComputeQuantumSignatures testCanonical [1] [] =
        some ("18ef8d47ed9933fe0b939bd96314868e5129739297c706b1558596f5a1dbf0bd",
          "561c85c7343e87ded4553c7e066c519435edcbd9e4cc65e79d813af6d57ebb9f") ∧
      ComputeQuantumSignatures testCanonical [2] [] =
        some ("6865327bc55fe2dbfd8c0e4db49fa5f7d22bed98b5c119b20959605f82d44dd8",
          "4d9b1caa509565a2c1f7a35c90d9c144541017fb0d47d2f0577e83d69ddfbb3e") ∧
      FormatHCSU7 testNormalizedProfile
          "18ef8d47ed9933fe0b939bd96314868e5129739297c706b1558596f5a1dbf0bd"
          "561c85c7343e87ded4553c7e066c519435edcbd9e4cc65e79d813af6d57ebb9f" =
        some ("HCS-U7|V:7.0|ALG:QS|E:A|MOD:c31f23m46|COG:F52C13V53S15Cr33|INT:PB=B,SM=M,TN=P|QSIG:18ef8d47ed9933fe0b939bd9|B3:561c85c7343e87ded4553c7e066c5194") ∧
      FormatHCSU7 testNormalizedProfile
          "6865327bc55fe2dbfd8c0e4db49fa5f7d22bed98b5c119b20959605f82d44dd8"
          "4d9b1caa509565a2c1f7a35c90d9c144541017fb0d47d2f0577e83d69ddfbb3e" =
        some ("HCS-U7|V:7.0|ALG:QS|E:A|MOD:c31f23m46|COG:F52C13V53S15Cr33|INT:PB=B,SM=M,TN=P|QSIG:6865327bc55fe2dbfd8c0e4d|B3:4d9b1caa509565a2c1f7a35c90d9c144") ∧
      GenerateCHIP [] testNormalizedProfile = "3eb06c997eeb" ∧
      ("18ef8d47ed9933fe0b939bd96314868e5129739297c706b1558596f5a1dbf0bd" : String) ≠
        "6865327bc55fe2dbfd8c0e4db49fa5f7d22bed98b5c119b20959605f82d44dd8" ∧
      ("561c85c7343e87ded4553c7e066c519435edcbd9e4cc65e79d813af6d57ebb9f" : String) ≠
        "4d9b1caa509565a2c1f7a35c90d9c144541017fb0d47d2f0577e83d69ddfbb3e") := by
  constructor
  · intro salt canonical s1 s2 h1 h2 hdk
    rw [ComputeQuantumSignatures, if_neg h1, ComputeQuantumSignatures, if_neg h2, hdk]
  · exact ⟨by decide, by decide, by decide, by decide, by decide, by decide, by decide⟩

theorem claim_C3_secret_sensitivity_witness :
    ComputeQuantumSignatures [] [1] [] = ComputeQuantumSignatures [] [1] [] :=
  claim_C3_secret_sensitivity.1 [] [] [1] [1] (by decide) (by decide) rfl

/-! ## Fusion engine (`fusion.go`, the rest)

Two pieces of ambient Go behaviour are threaded as explicit parameters,
exactly like the timezone resolver of `ComputeChineseProfile`:
`sqrtQ` models `math.Sqrt` (irrational on ℚ, so not representable
exactly), and `floatRepr` models the textual `%v` rendering of a float64
inside `fmt`'s `%+v` (shortest-round-trip decimal, undefined on exact
rationals).  No claim below depends on either value.  Where Go iterates a
`map[string]float64`, a key is modelled as present exactly when its value
is non-zero (the repository only ever inserts strictly positive values),
and iteration order — randomized in Go — is fixed to the enumeration
order of the model, which only matters for tie-breaking in maximum
searches. -/

/-- `GeneratorOptions`. -/
structure GeneratorOptions where
  U3Only : Bool
  U4Only : Bool
  deriving DecidableEq, Repr

/-- `CognitiveFusion`. -/
structure CognitiveFusion where
  Analytical : ℚ
  Creative : ℚ
  Grounded : ℚ
  Adaptive : ℚ
  Expressive : ℚ
  deriving DecidableEq, Repr

/-- `TempoSignals`. -/
structure TempoSignals where
  Pace : ℚ
  Variability : ℚ
  Intensity : ℚ
  Rhythm : String
  deriving DecidableEq, Repr

/-- `FusionProfile`. -/
structure FusionProfile where
  ElementSignature : ElemMap
  CognitiveFusion : CognitiveFusion
  TempoSignals : TempoSignals
  UnifiedBalance : ℚ
  HarmonicResonance : ℚ
  FusionID : String
  deriving DecidableEq, Repr

/-- `CombinedProfile`. -/
structure CombinedProfile where
  Western : WesternProfile
  Chinese : ChineseProfile
  Fusion : FusionProfile
  deriving DecidableEq, Repr

/-- `clampValue`: clamp to [0, 1]. -/
def clampValue (value : ℚ) : ℚ := max 0 (min 1 value)

/-- `calculateElementVariability`: scaled standard deviation of the
element distribution (a zero entry is an absent map key and contributes
nothing). -/
def calculateElementVariability (sqrtQ : ℚ → ℚ) (elements : ElemMap) : ℚ :=
  let term := fun (v : ℚ) => if v = 0 then 0 else (v - 2/10) * (v - 2/10)
  let variance := term elements.Wood + term elements.Fire + term elements.Earth +
    term elements.Metal + term elements.Water
  let stdDev := sqrtQ (variance / 5)
  min (stdDev * 4) 1

/-- `calculateModalVariability`. -/
def calculateModalVariability (sqrtQ : ℚ → ℚ) (modal : ModalBalance) : ℚ :=
  let term := fun (v : ℚ) => (v - 1/3) * (v - 1/3)
  let variance := term modal.Cardinal + term modal.Fixed + term modal.Mutable
  let stdDev := sqrtQ (variance / 3)
  1 - min (stdDev * 3) 1

/-- `getDominantElement` (`fusion.go`): strict-maximum scan of the map;
ties keep the earlier element in the fixed enumeration order. -/
def getDominantElement (elements : ElemMap) : String :=
  let step := fun (acc : String × ℚ) (e : Element) =>
    if getE elements e > acc.2 then (e.name, getE elements e) else acc
  ([Element.Wood, .Fire, .Earth, .Metal, .Water].foldl step ("", 0)).1

/-- `areElementsCompatible`. -/
def areElementsCompatible (western chinese : String) : Bool :=
  if western = "Fire" then chinese = "Fire" ∨ chinese = "Wood"
  else if western = "Earth" then chinese = "Earth" ∨ chinese = "Fire" ∨ chinese = "Metal"
  else if western = "Air" then chinese = "Wood" ∨ chinese = "Metal"
  else if western = "Water" then chinese = "Water" ∨ chinese = "Wood"
  else false

/-- `getElementCode`: the 20-entry combination table, default `"X"`. -/
def getElementCode (western chinese : String) : String :=
  let key := western ++ "-" ++ chinese
  let codes : List (String × String) :=
    [("Fire-Fire", "A"), ("Fire-Wood", "B"), ("Fire-Earth", "C"),
     ("Fire-Metal", "D"), ("Fire-Water", "E"),
     ("Earth-Fire", "F"), ("Earth-Wood", "G"), ("Earth-Earth", "H"),
     ("Earth-Metal", "I"), ("Earth-Water", "J"),
     ("Air-Fire", "K"), ("Air-Wood", "L"), ("Air-Earth", "M"),
     ("Air-Metal", "N"), ("Air-Water", "O"),
     ("Water-Fire", "P"), ("Water-Wood", "Q"), ("Water-Earth", "R"),
     ("Water-Metal", "S"), ("Water-Water", "T")]
  match codes.find? (fun p => p.1 = key) with
  | some p => p.2
  | none => "X"

/-- `getBalanceCode`: a 3×3 zone grid over modal balance and Yin/Yang. -/
def getBalanceCode (modal : ModalBalance) (yinYang : ℚ) : String :=
  let modalZone : ℕ :=
    if modal.Cardinal > 4/10 then 2 else if modal.Fixed > 4/10 then 1 else 0
  let yinYangZone : ℕ :=
    if yinYang > 66/100 then 2 else if yinYang > 33/100 then 1 else 0
  (["1", "2", "3", "4", "5", "6", "7", "8", "9"]).getD (modalZone * 3 + yinYangZone) "1"

/-- `buildCognitiveFusion`. -/
def buildCognitiveFusion (sqrtQ : ℚ → ℚ) (western : WesternProfile)
    (chinese : ChineseProfile) : CognitiveFusion :=
  let metalInfluence := chinese.ElementBalance.Metal
  let waterInfluence := chinese.ElementBalance.Water
  let fireInfluence := chinese.ElementBalance.Fire
  let woodInfluence := chinese.ElementBalance.Wood
  let earthInfluence := chinese.ElementBalance.Earth
  let yangInfluence := chinese.YinYangBalance
  let analytical := western.Cognition.Strategic * (5/10) +
    (metalInfluence * (3/10) + waterInfluence * (2/10))
  let creative := western.Cognition.Creative * (5/10) +
    (fireInfluence * (3/10) + woodInfluence * (2/10))
  let grounded := western.Cognition.Crystallized * (5/10) + earthInfluence * (5/10)
  let elementVariability := calculateElementVariability sqrtQ chinese.ElementBalance
  let adaptive := western.Cognition.Fluid * (6/10) + elementVariability * (4/10)
  let expressive := western.Cognition.Verbal * (5/10) + yangInfluence * (5/10)
  ⟨clampValue analytical, clampValue creative, clampValue grounded,
   clampValue adaptive, clampValue expressive⟩

/-- `buildTempoSignals`. -/
def buildTempoSignals (sqrtQ : ℚ → ℚ) (western : WesternProfile)
    (chinese : ChineseProfile) : TempoSignals :=
  let basePace : ℚ :=
    if western.Interaction.Pace = "fast" then 8/10
    else if western.Interaction.Pace = "slow" then 2/10
    else 5/10
  let pace := basePace * (6/10) + chinese.YinYangBalance * (4/10)
  let modalVariability := calculateModalVariability sqrtQ western.Modal
  let elementVariability := calculateElementVariability sqrtQ chinese.ElementBalance
  let variability := (modalVariability + elementVariability) / 2
  let fireWater := chinese.ElementBalance.Fire + chinese.ElementBalance.Water
  let intensity := fireWater * (5/10) + chinese.DayMasterStrength * (5/10)
  let rhythm :=
    if variability > 6/10 then "fluctuating"
    else if intensity > 6/10 ∧ pace > 6/10 then "dynamic"
    else "steady"
  ⟨clampValue pace, clampValue variability, clampValue intensity, rhythm⟩

/-- `calculateUnifiedBalance`. -/
def calculateUnifiedBalance (western : WesternProfile) (chinese : ChineseProfile) : ℚ :=
  let modalBalance := western.Modal.Cardinal * (5/10) + western.Modal.Mutable * (3/10) +
    (1 - western.Modal.Fixed) * (2/10)
  clampValue (modalBalance * (4/10) + chinese.YinYangBalance * (6/10))

/-- `calculateHarmonicResonance`. -/
def calculateHarmonicResonance (western : WesternProfile) (chinese : ChineseProfile) : ℚ :=
  let resonance : ℚ := 5/10
  let chineseDominant := getDominantElement chinese.ElementBalance
  let resonance :=
    if areElementsCompatible western.DominantElement chineseDominant then resonance + 2/10
    else resonance
  let resonance :=
    if western.Interaction.Pace = "fast" ∧ chinese.YinYangBalance > 6/10 then
      resonance + 15/100
    else if western.Interaction.Pace = "slow" ∧ chinese.YinYangBalance < 4/10 then
      resonance + 15/100
    else if western.Interaction.Pace = "balanced" ∧
        chinese.YinYangBalance ≥ 4/10 ∧ chinese.YinYangBalance ≤ 6/10 then
      resonance + 15/100
    else resonance
  let earthMetal := chinese.ElementBalance.Earth + chinese.ElementBalance.Metal
  let resonance :=
    if western.Interaction.Structure = "high" ∧ earthMetal > 4/10 then resonance + 15/100
    else if western.Interaction.Structure = "low" ∧ earthMetal < 3/10 then resonance + 15/100
    else resonance
  clampValue resonance

/-- `generateFusionID`. -/
def generateFusionID (western : WesternProfile) (chinese : ChineseProfile) : String :=
  getElementCode western.DominantElement (getDominantElement chinese.ElementBalance) ++
    getBalanceCode western.Modal chinese.YinYangBalance

/-- `BuildFusionProfile`. -/
def BuildFusionProfile (sqrtQ : ℚ → ℚ) (western : WesternProfile)
    (chinese : ChineseProfile) : FusionProfile :=
  ⟨buildElementSignature western chinese,
   buildCognitiveFusion sqrtQ western chinese,
   buildTempoSignals sqrtQ western chinese,
   calculateUnifiedBalance western chinese,
   calculateHarmonicResonance western chinese,
   generateFusionID western chinese⟩

/-! ## The U5 codec (`codec_u4.go`, second half) -/

/-- Go conversion `uint16(f)` of a float: truncation toward zero, reduced
mod 2^16 (all values converted in this codec lie in [0, 7]). -/
def goUint16 (q : ℚ) : ℕ := (⌊q⌋).toNat % 65536

/-- Hex digits of a natural number (most significant first). -/
def natHexAux : ℕ → ℕ → List Char
  | 0, _ => []
  | fuel + 1, n =>
    if n = 0 then [] else natHexAux fuel (n / 16) ++ [hexDigitChar (n % 16)]

/-- Go `fmt` `%04x`: lowercase hex, zero-padded to width 4. -/
def hex4 (n : ℕ) : String :=
  let h := if n = 0 then ['0'] else natHexAux n n
  ⟨List.replicate (4 - h.length) '0' ++ h⟩

/-- `compressWesternProfile`: pack the Western profile into 16 bits. -/
def compressWesternProfile (western : WesternProfile) : String :=
  let elementBits : ℕ :=
    if western.DominantElement = "Fire" then 0
    else if western.DominantElement = "Earth" then 1
    else if western.DominantElement = "Air" then 2
    else if western.DominantElement = "Water" then 3
    else 0
  let cardinalBits := goUint16 (western.Modal.Cardinal * 7)
  let fixedBits := goUint16 (western.Modal.Fixed * 7)
  let mutableBits := goUint16 (western.Modal.Mutable * 7)
  let paceBits : ℕ :=
    if western.Interaction.Pace = "slow" then 0
    else if western.Interaction.Pace = "balanced" then 1
    else if western.Interaction.Pace = "fast" then 2
    else 0
  let bits := (elementBits <<< 14) ||| (cardinalBits <<< 10) ||| (fixedBits <<< 7) |||
    (mutableBits <<< 4) ||| (paceBits <<< 2) |||
    (if western.Interaction.Structure = "high" then 2 else 0) |||
    (if western.Interaction.Tone = "sharp" ∨ western.Interaction.Tone = "precise"
      then 1 else 0)
  hex4 bits

/-- `calculateElementDistribution` (`codec_u4.go`): normalized variance of
the element balance, scaled and clamped. -/
def calculateElementDistribution (elements : ElemMap) : ℚ :=
  let term := fun (v : ℚ) => if v = 0 then 0 else (v - 2/10) * (v - 2/10)
  let sumSquaredDiff := term elements.Wood + term elements.Fire + term elements.Earth +
    term elements.Metal + term elements.Water
  clampValue (sumSquaredDiff / 5 * 10)

/-- `compressChineseProfile`: pack the Chinese profile into 16 bits. -/
def compressChineseProfile (chinese : ChineseProfile) : String :=
  let dominantElement := GetDominantChineseElement chinese
  let elementBits : ℕ :=
    if dominantElement = "Wood" then 0
    else if dominantElement = "Fire" then 1
    else if dominantElement = "Earth" then 2
    else if dominantElement = "Metal" then 3
    else if dominantElement = "Water" then 4
    else 0
  let yinYangBits := goUint16 (chinese.YinYangBalance * 7)
  let dayMasterBits : ℕ :=
    match HeavenlyStems.findIdx? (fun stem => stem.Name = chinese.DayMaster) with
    | some i => i
    | none => 0
  let strengthBits := goUint16 (chinese.DayMasterStrength * 7)
  let patternBits := goUint16 (calculateElementDistribution chinese.ElementBalance * 7)
  hex4 ((elementBits <<< 13) ||| (yinYangBits <<< 10) ||| (dayMasterBits <<< 6) |||
    (strengthBits <<< 3) ||| patternBits)

/-- `getCognitivePattern`: primary and secondary strict-maximum cognitive
traits (Go iterates a map in random order; the fixed key order 0..4 of
the model only affects tie-breaking). -/
def getCognitivePattern (cog : CognitiveFusion) : ℕ :=
  let traits : List (ℕ × ℚ) :=
    [(0, cog.Analytical), (1, cog.Creative), (2, cog.Grounded),
     (3, cog.Adaptive), (4, cog.Expressive)]
  let primary := traits.foldl
    (fun (acc : ℕ × ℚ) t => if t.2 > acc.2 then t else acc) (0, 0)
  let second := traits.foldl
    (fun (acc : ℕ × ℚ) t => if t.1 ≠ primary.1 ∧ t.2 > acc.2 then t else acc) (0, 0)
  (primary.1 <<< 2) ||| (second.1 &&& 3)

/-- `compressFusionProfile`: pack the fusion profile into 16 bits. -/
def compressFusionProfile (fusion : FusionProfile) : String :=
  let cogPattern := getCognitivePattern fusion.CognitiveFusion
  let paceBits := goUint16 (fusion.TempoSignals.Pace * 7)
  let intensityBits := goUint16 (fusion.TempoSignals.Intensity * 7)
  let balanceBits := goUint16 (fusion.UnifiedBalance * 7)
  let resonanceBits := goUint16 (fusion.HarmonicResonance * 7)
  hex4 ((cogPattern <<< 12) ||| (paceBits <<< 9) ||| (intensityBits <<< 6) |||
    (balanceBits <<< 3) ||| resonanceBits)

/-! `%+v` renderings used by `generateU5Chip` (`fmt` semantics: struct
fields as `Name:value` separated by single spaces, a pointer prefixed
`&`, a map as `map[...]` with its keys sorted; float values through the
`floatRepr` parameter). -/

/-- `%+v` of a `map[string]float64` over the five Chinese elements (keys
in sorted order: Earth, Fire, Metal, Water, Wood). -/
def goReprElemMap (floatRepr : ℚ → String) (m : ElemMap) : String :=
  let entries :=
    (if m.Earth ≠ 0 then ["Earth:" ++ floatRepr m.Earth] else []) ++
    (if m.Fire ≠ 0 then ["Fire:" ++ floatRepr m.Fire] else []) ++
    (if m.Metal ≠ 0 then ["Metal:" ++ floatRepr m.Metal] else []) ++
    (if m.Water ≠ 0 then ["Water:" ++ floatRepr m.Water] else []) ++
    (if m.Wood ≠ 0 then ["Wood:" ++ floatRepr m.Wood] else [])
  "map[" ++ String.intercalate " " entries ++ "]"

/-- `%+v` of a `ModalBalance`. -/
def goReprModal (floatRepr : ℚ → String) (m : ModalBalance) : String :=
  "\x7bCardinal:" ++ floatRepr m.Cardinal ++ " Fixed:" ++ floatRepr m.Fixed ++
    " Mutable:" ++ floatRepr m.Mutable ++ "\x7d"

/-- `%+v` of a `CognitionProfile`. -/
def goReprCognition (floatRepr : ℚ → String) (c : CognitionProfile) : String :=
  "\x7bFluid:" ++ floatRepr c.Fluid ++ " Crystallized:" ++ floatRepr c.Crystallized ++
    " Verbal:" ++ floatRepr c.Verbal ++ " Strategic:" ++ floatRepr c.Strategic ++
    " Creative:" ++ floatRepr c.Creative ++ "\x7d"

/-- `%+v` of an `InteractionPreferences`. -/
def goReprInteraction (i : InteractionPreferences) : String :=
  "\x7bPace:" ++ i.Pace ++ " Structure:" ++ i.Structure ++ " Tone:" ++ i.Tone ++ "\x7d"

/-- `%+v` of a `*WesternProfile`. -/
def goReprWestern (floatRepr : ℚ → String) (w : WesternProfile) : String :=
  "&\x7bDominantElement:" ++ w.DominantElement ++ " Modal:" ++ goReprModal floatRepr w.Modal ++
    " Cognition:" ++ goReprCognition floatRepr w.Cognition ++
    " Interaction:" ++ goReprInteraction w.Interaction ++ "\x7d"

/-- `%+v` of a `*ChineseProfile`. -/
def goReprChinese (floatRepr : ℚ → String) (c : ChineseProfile) : String :=
  "&\x7bYearPillar:" ++ c.YearPillar ++ " MonthPillar:" ++ c.MonthPillar ++
    " DayPillar:" ++ c.DayPillar ++ " HourPillar:" ++ c.HourPillar ++
    " YinYangBalance:" ++ floatRepr c.YinYangBalance ++
    " ElementBalance:" ++ goReprElemMap floatRepr c.ElementBalance ++
    " DayMaster:" ++ c.DayMaster ++
    " DayMasterStrength:" ++ floatRepr c.DayMasterStrength ++ "\x7d"

/-- `%+v` of a `CognitiveFusion`. -/
def goReprCognitiveFusion (floatRepr : ℚ → String) (g : CognitiveFusion) : String :=
  "\x7bAnalytical:" ++ floatRepr g.Analytical ++ " Creative:" ++ floatRepr g.Creative ++
    " Grounded:" ++ floatRepr g.Grounded ++ " Adaptive:" ++ floatRepr g.Adaptive ++
    " Expressive:" ++ floatRepr g.Expressive ++ "\x7d"

/-- `%+v` of a `TempoSignals`. -/
def goReprTempo (floatRepr : ℚ → String) (t : TempoSignals) : String :=
  "\x7bPace:" ++ floatRepr t.Pace ++ " Variability:" ++ floatRepr t.Variability ++
    " Intensity:" ++ floatRepr t.Intensity ++ " Rhythm:" ++ t.Rhythm ++ "\x7d"

/-- `%+v` of a `*FusionProfile`. -/
def goReprFusion (floatRepr : ℚ → String) (f : FusionProfile) : String :=
  "&\x7bElementSignature:" ++ goReprElemMap floatRepr f.ElementSignature ++
    " CognitiveFusion:" ++ goReprCognitiveFusion floatRepr f.CognitiveFusion ++
    " TempoSignals:" ++ goReprTempo floatRepr f.TempoSignals ++
    " UnifiedBalance:" ++ floatRepr f.UnifiedBalance ++
    " HarmonicResonance:" ++ floatRepr f.HarmonicResonance ++
    " FusionID:" ++ f.FusionID ++ "\x7d"

/-- `generateU5Chip`: SHA-256 of salt plus the `%+v` debug rendering of all
three profiles, truncated to 12 hex characters. -/
def generateU5Chip (floatRepr : ℚ → String) (western : WesternProfile)
    (chinese : ChineseProfile) (fusion : FusionProfile) (salt : List ℕ) : String :=
  let data := "U5|W:" ++ goReprWestern floatRepr western ++
    "|C:" ++ goReprChinese floatRepr chinese ++ "|F:" ++ goReprFusion floatRepr fusion
  ⟨(hexEncode (sha256 (salt ++ utf8Bytes data.data))).take 12⟩

/-- `EncodeU5`: the pipe-separated U5 code (a fusion id that is not
exactly two bytes long falls back to `"XX"`; `generateU5Chip` cannot
fail, so the Go error branch is dead). -/
def EncodeU5 (floatRepr : ℚ → String) (western : WesternProfile)
    (chinese : ChineseProfile) (fusion : FusionProfile) (salt : List ℕ) : String :=
  let fusionID := if fusion.FusionID.data.length = 2 then fusion.FusionID else "XX"
  "HCS-U5|" ++ fusionID ++ "|W:" ++ compressWesternProfile western ++
    "|C:" ++ compressChineseProfile chinese ++ "|F:" ++ compressFusionProfile fusion ++
    "|CHIP:" ++ generateU5Chip floatRepr western chinese fusion salt

/-! ## The canonicalizer (`CanonicalProfileData` and `fixed4`) -/

/-- Go `fmt` `%.*f` on the exact rational model: fixed decimals with
round-half-to-even (`fixed4` uses 4, `%f` in error messages uses 6). -/
def fixedRepr (prec : ℕ) (q : ℚ) : String :=
  let a := |q|
  let scale : ℕ := 10 ^ prec
  let num := a * scale
  let fl := (⌊num⌋).toNat
  let frac := num - fl
  let r := if frac > 1/2 then fl + 1
    else if frac < 1/2 then fl
    else if fl % 2 = 0 then fl else fl + 1
  let fracDigits := natDec (r % scale)
  (if q < 0 then "-" else "") ++ natDec (r / scale) ++ "." ++
    ⟨List.replicate (prec - fracDigits.data.length) '0' ++ fracDigits.data⟩

/-- The `elementBalance` entries of the canonical Chinese component: one
`{"name":...,"value":...}` object per present element, keys in sorted
order (Earth, Fire, Metal, Water, Wood), values in `fixed4` form. -/
def canonicalElems (m : ElemMap) : List (List Char) :=
  let entry := fun (k : String) (v : ℚ) =>
    ("\x7b\"name\":").data ++ jsonString k ++ (",\"value\":").data ++
      (fixedRepr 4 v).data ++ ['}']
  (if m.Earth ≠ 0 then [entry "Earth" m.Earth] else []) ++
  (if m.Fire ≠ 0 then [entry "Fire" m.Fire] else []) ++
  (if m.Metal ≠ 0 then [entry "Metal" m.Metal] else []) ++
  (if m.Water ≠ 0 then [entry "Water" m.Water] else []) ++
  (if m.Wood ≠ 0 then [entry "Wood" m.Wood] else [])

/-- Comma-separated concatenation of JSON array members. -/
def jsonCommaSep : List (List Char) → List Char
  | [] => []
  | [x] => x
  | x :: xs => x ++ ',' :: jsonCommaSep xs

/-- `json.Marshal` of the `canonicalChinese` struct. -/
def canonicalChineseJson (c : ChineseProfile) : List Char :=
  let elems := canonicalElems c.ElementBalance
  ("\x7b\"yearPillar\":").data ++ jsonString c.YearPillar ++
    (",\"monthPillar\":").data ++ jsonString c.MonthPillar ++
    (",\"dayPillar\":").data ++ jsonString c.DayPillar ++
    (",\"hourPillar\":").data ++ jsonString c.HourPillar ++
    (",\"yinYangBalance\":").data ++ (fixedRepr 4 c.YinYangBalance).data ++
    (if elems = [] then []
     else (",\"elementBalance\":[").data ++ jsonCommaSep elems ++ [']']) ++
    (",\"dayMaster\":").data ++ jsonString c.DayMaster ++
    (",\"dayMasterStrength\":").data ++ (fixedRepr 4 c.DayMasterStrength).data ++ ['}']

/-- `json.Marshal` of the `canonicalFusion` struct. -/
def canonicalFusionJson (f : FusionProfile) : List Char :=
  ("\x7b\"fusionId\":").data ++ jsonString f.FusionID ++
    (",\"unifiedBalance\":").data ++ (fixedRepr 4 f.UnifiedBalance).data ++
    (",\"harmonicResonance\":").data ++ (fixedRepr 4 f.HarmonicResonance).data ++ ['}']

/-- `CanonicalProfileData`: the canonical JSON bytes signed by the U7
path (`json.Marshal` cannot fail here, so the Go error branch is dead). -/
def CanonicalProfileData (normalized : NormalizedProfile)
    (combined : Option CombinedProfile) : List ℕ :=
  utf8Bytes (("\x7b\"normalized\":").data ++ jsonNormalized normalized ++
    (match combined with
     | none => []
     | some c => (",\"chinese\":").data ++ canonicalChineseJson c.Chinese ++
         (",\"fusion\":").data ++ canonicalFusionJson c.Fusion) ++ ['}'])

/-! ## The generator (`Generator.GenerateWithOptions`, `validateInput`)

`validateInput` takes the caller's profile through a pointer and
overwrites empty interaction fields with defaults before validating them,
so the model returns the verdict together with the profile value the
caller is left holding; `GenerateWithOptions` threads that value through
(its result pair's second component is the caller's profile after the
call).  `LoadSecretKey` reads an environment variable, so its result — a
key or an error — is a parameter, like the timezone resolver. -/

/-- `validateRange`. -/
def validateRange (field : String) (value : ℚ) : Except String Unit :=
  if value < 0 ∨ value > 1 then
    .error (field ++ " must be between 0 and 1, got " ++ fixedRepr 6 value)
  else .ok ()

/-- The eight `validateRange` checks of `validateInput`, in source order. -/
def validateRanges (inp : InputProfile) : Except String Unit := do
  let _ ← validateRange "modal.cardinal" inp.Modal.Cardinal
  let _ ← validateRange "modal.fixed" inp.Modal.Fixed
  let _ ← validateRange "modal.mutable" inp.Modal.Mutable
  let _ ← validateRange "cognition.fluid" inp.Cognition.Fluid
  let _ ← validateRange "cognition.crystallized" inp.Cognition.Crystallized
  let _ ← validateRange "cognition.verbal" inp.Cognition.Verbal
  let _ ← validateRange "cognition.strategic" inp.Cognition.Strategic
  validateRange "cognition.creative" inp.Cognition.Creative

/-- `validateInput` (the U7-era version of `part_001`): element and range
checks on the unmodified profile, then the empty interaction fields are
overwritten with defaults through the caller's pointer, then the
interaction and optional birth info checks.  The second component is the
caller's profile after the call (mutated even when a later check fails). -/
def validateInput (inp : InputProfile) : Except String Unit × InputProfile :=
  if ¬(inp.DominantElement = "Earth" ∨ inp.DominantElement = "Air" ∨
      inp.DominantElement = "Water" ∨ inp.DominantElement = "Fire") then
    (.error ("invalid dominant element: " ++ inp.DominantElement), inp)
  else
    match validateRanges inp with
    | .error e => (.error e, inp)
    | .ok _ =>
      let inter := inp.Interaction
      let inter := { inter with Pace := if inter.Pace = "" then "balanced" else inter.Pace }
      let inter := { inter with
        Structure := if inter.Structure = "" then "medium" else inter.Structure }
      let inter := { inter with Tone := if inter.Tone = "" then "neutral" else inter.Tone }
      let inp2 := { inp with Interaction := inter }
      if ¬(inter.Pace = "balanced" ∨ inter.Pace = "fast" ∨ inter.Pace = "slow") then
        (.error ("invalid pace: " ++ inter.Pace), inp2)
      else if ¬(inter.Structure = "low" ∨ inter.Structure = "medium" ∨
          inter.Structure = "high") then
        (.error ("invalid structure: " ++ inter.Structure), inp2)
      else if ¬(inter.Tone = "warm" ∨ inter.Tone = "neutral" ∨ inter.Tone = "sharp" ∨
          inter.Tone = "precise") then
        (.error ("invalid tone: " ++ inter.Tone), inp2)
      else
        match inp.BirthInfo with
        | some b =>
          match validateBirthInfo b with
          | .error e => (.error ("invalid birth info: " ++ e), inp2)
          | .ok _ => (.ok (), inp2)
        | none => (.ok (), inp2)

/-- `OutputHCS`.  The fields through `CombinedProfile` are the `types.go`
declaration under src.  Modelled from the spec: the U7-era declaration
adding the signed code and signature fields is not under src (only the
generator and the tests that set and read `CodeU7`, `QSig` and `B3Sig`
are); the spec's Output aggregates the U7 signed code and the signature
hex strings alongside them. -/
structure OutputHCS where
  Input : InputProfile
  CodeU3 : String
  CodeU4 : String
  CodeU5 : String
  Chip : String
  ChineseProfile : Option ChineseProfile
  CombinedProfile : Option CombinedProfile
  CodeU7 : String
  QSig : String
  B3Sig : String
  deriving DecidableEq, Repr

/-- `GenerateWithOptions`: validate (mutating the caller's profile),
normalize, CHIP, U3/U4 per options, the optional Chinese/fusion/U5 branch
(a Chinese-profile error only skips the branch), canonical data, secret
key, quantum signatures, U7.  The pair's second component is the caller's
profile after the call. -/
def GenerateWithOptions (resolveTimezone : String → Option Unit) (sqrtQ : ℚ → ℚ)
    (floatRepr : ℚ → String) (salt : List ℕ) (secret : Except String (List ℕ))
    (inp : InputProfile) (opts : Option GeneratorOptions) :
    Except String OutputHCS × InputProfile :=
  match validateInput inp with
  | (verdict, inp2) =>
    (match verdict with
     | .error e => .error ("invalid input profile: " ++ e)
     | .ok _ =>
       let o := opts.getD ⟨false, false⟩
       let normalized := NormalizeProfile inp2
       let chip := GenerateCHIP salt normalized
       let codeU3 := if ¬o.U4Only then EncodeU3 inp2 chip else ""
       let codeU4 := if ¬o.U3Only then EncodeU4 normalized chip else ""
       let branch : Option ChineseProfile × Option CombinedProfile × String :=
         match inp2.BirthInfo with
         | none => (none, none, "")
         | some b =>
           match ComputeChineseProfile resolveTimezone b with
           | .error _ => (none, none, "")
           | .ok ch =>
             let wp : WesternProfile :=
               ⟨inp2.DominantElement, inp2.Modal, inp2.Cognition, inp2.Interaction⟩
             let fp := BuildFusionProfile sqrtQ wp ch
             (some ch, some ⟨wp, ch, fp⟩, EncodeU5 floatRepr wp ch fp salt)
       let canonical := CanonicalProfileData normalized branch.2.1
       match secret with
       | .error e => .error ("failed to load secret key: " ++ e)
       | .ok sk =>
         match ComputeQuantumSignatures canonical sk salt with
         | none => .error "failed to compute quantum signatures: secret key must not be empty"
         | some (qs, b3) =>
           match FormatHCSU7 normalized qs b3 with
           | none => .error "failed to format HCS-U7 code: signatures must not be empty"
           | some u7 =>
             .ok ⟨inp2, codeU3, codeU4, branch.2.2, chip, branch.1, branch.2.1, u7, qs, b3⟩,
     inp2)

/-- `Generate`: `GenerateWithOptions` with nil options. -/
def Generate (resolveTimezone : String → Option Unit) (sqrtQ : ℚ → ℚ)
    (floatRepr : ℚ → String) (salt : List ℕ) (secret : Except String (List ℕ))
    (inp : InputProfile) : Except String OutputHCS × InputProfile :=
  GenerateWithOptions resolveTimezone sqrtQ floatRepr salt secret inp none

/-! ## Claims C7 and C8 -/

theorem hexEncode_length (l : List ℕ) : (hexEncode l).length = 2 * l.length := by
  induction l with
  | nil => rfl
  | cons b t ih =>
    simp only [hexEncode, List.map_cons, List.flatten_cons, List.length_append,
      List.length_cons, List.length_nil] at ih ⊢
    omega

theorem hmacSha3_length (key msg : List ℕ) : (hmacSha3 key msg).length = 32 :=
  sha3_256_length _

theorem String_ne_empty_of_data (s : String) (h : s.data ≠ []) : s ≠ "" :=
  fun he => h (by rw [he])

theorem data_append_left (s t : String) (h : s.data ≠ []) : (s ++ t).data ≠ [] := by
  rw [String.data_append]
  intro hc
  exact h (List.append_eq_nil.mp hc).1

theorem encodeU3_ne_empty (inp : InputProfile) (chip : String) : EncodeU3 inp chip ≠ "" := by
  apply String_ne_empty_of_data
  unfold EncodeU3
  repeat' apply data_append_left
  decide

theorem encodeU4_ne_empty (n : NormalizedProfile) (chip : String) : EncodeU4 n chip ≠ "" := by
  apply String_ne_empty_of_data
  unfold EncodeU4
  apply data_append_left
  decide

/-- The caller's profile after a generation call is exactly what
`validateInput` leaves behind: nothing later in the pipeline writes to it. -/
theorem generate_final_input (rt : String → Option Unit) (sq : ℚ → ℚ)
    (fr : ℚ → String) (salt : List ℕ) (secret : Except String (List ℕ))
    (inp : InputProfile) (opts : Option GeneratorOptions) :
    (GenerateWithOptions rt sq fr salt secret inp opts).2 = (validateInput inp).2 := by
  unfold GenerateWithOptions
  rcases h : validateInput inp with ⟨r, inp2⟩
  rfl

/-- `validateInput` never touches the birth info. -/
theorem validateInput_birthInfo (inp : InputProfile) :
    (validateInput inp).2.BirthInfo = inp.BirthInfo := by
  unfold validateInput
  dsimp only
  repeat' split
  all_goals rfl

/-- `validateInput` is the identity on the caller's profile when all three
interaction fields are non-empty. -/
theorem validateInput_snd_of_nonempty (inp : InputProfile)
    (hp : inp.Interaction.Pace ≠ "") (hs : inp.Interaction.Structure ≠ "")
    (ht : inp.Interaction.Tone ≠ "") : (validateInput inp).2 = inp := by
  unfold validateInput
  dsimp only
  simp only [hp, hs, ht, if_false, reduceIte]
  repeat' split
  all_goals rfl

/-- C7: with no birth info and a valid profile and secret, generation
succeeds with empty U5 code, no Chinese and no combined profile, and
non-empty U3, U4 and U7 codes. -/
theorem claim_C7_no_birth_info (rt : String → Option Unit) (sq : ℚ → ℚ)
    (fr : ℚ → String) (salt sk : List ℕ) (inp : InputProfile)
    (hval : (validateInput inp).1 = .ok ()) (hb : inp.BirthInfo = none)
    (hsk : sk ≠ []) :
    ∃ out, (Generate rt sq fr salt (.ok sk) inp).1 = .ok out ∧
      out.CodeU5 = "" ∧ out.ChineseProfile = none ∧ out.CombinedProfile = none ∧
      out.CodeU3 ≠ "" ∧ out.CodeU4 ≠ "" ∧ out.CodeU7 ≠ "" := by
  have hb2 : (validateInput inp).2.BirthInfo = none :=
    (validateInput_birthInfo inp).trans hb
  unfold Generate GenerateWithOptions
  rcases h : validateInput inp with ⟨r, inp2⟩
  rw [h] at hval hb2
  dsimp at hval hb2 ⊢
  subst hval
  dsimp only
  rw [hb2]
  dsimp only
  rw [ComputeQuantumSignatures, if_neg hsk]
  dsimp only
  rw [FormatHCSU7]
  rw [if_neg (by
    simp only [hexEncode_length, hmacSha3_length]
    have hb3 : (blake3_256 (hmacSha3 sk salt ++
        CanonicalProfileData (NormalizeProfile inp2) none)).length = 32 := by
      simp [blake3_256]
    rw [hb3]
    omega)]
  dsimp only
  refine ⟨_, rfl, rfl, rfl, rfl, ?_, ?_, ?_⟩
  · exact encodeU3_ne_empty _ _
  · exact encodeU4_ne_empty _ _
  · apply String_ne_empty_of_data
    repeat' apply data_append_left
    decide

/-- C7 witness: the test profile, empty salt, secret `0x01`. -/
theorem claim_C7_witness :
    (validateInput testInputProfile).1 = .ok () ∧
    testInputProfile.BirthInfo = none ∧ ([1] : List ℕ) ≠ [] ∧
    (∃ out, (Generate (fun _ => some ()) (fun q => q) (fun _ => "") [] (.ok [1])
        testInputProfile).1 = .ok out ∧
      out.CodeU5 = "" ∧ out.ChineseProfile = none ∧ out.CombinedProfile = none ∧
      out.CodeU3 ≠ "" ∧ out.CodeU4 ≠ "" ∧ out.CodeU7 ≠ "") :=
  ⟨rfl, rfl, by decide,
    claim_C7_no_birth_info (fun _ => some ()) (fun q => q) (fun _ => "") [] [1]
      testInputProfile rfl rfl (by decide)⟩

/-- C8: the claim that a generation call never modifies the caller's
profile is false: `validateInput` overwrites an empty interaction field
with its default through the caller's pointer.  An otherwise valid
profile with an empty pace comes back with pace `"balanced"`. -/
theorem claim_C8_counterexample :
    (Generate (fun _ => some ()) (fun q => q) (fun _ => "") [] (.ok [1])
        { DominantElement := "Air", Modal := ⟨mkRat 31 100, mkRat 23 100, mkRat 46 100⟩,
          Cognition := ⟨mkRat 52 100, mkRat 13 100, mkRat 53 100, mkRat 15 100,
            mkRat 33 100⟩,
          Interaction := ⟨"", "medium", "precise"⟩ }).2 ≠
      { DominantElement := "Air", Modal := ⟨mkRat 31 100, mkRat 23 100, mkRat 46 100⟩,
        Cognition := ⟨mkRat 52 100, mkRat 13 100, mkRat 53 100, mkRat 15 100,
          mkRat 33 100⟩,
        Interaction := ⟨"", "medium", "precise"⟩ } := by
  rw [Generate, generate_final_input]
  decide

/-- C8 (amended): a generation call leaves the caller's `InputProfile`
unchanged whenever the three interaction preference fields are all
non-empty; an empty field is overwritten with its default ("balanced",
"medium" or "neutral") even when the call fails. -/
theorem claim_C8_frame (rt : String → Option Unit) (sq : ℚ → ℚ) (fr : ℚ → String)
    (salt : List ℕ) (secret : Except String (List ℕ)) (inp : InputProfile)
    (opts : Option GeneratorOptions)
    (hp : inp.Interaction.Pace ≠ "") (hs : inp.Interaction.Structure ≠ "")
    (ht : inp.Interaction.Tone ≠ "") :
    (GenerateWithOptions rt sq fr salt secret inp opts).2 = inp := by
  rw [generate_final_input, validateInput_snd_of_nonempty inp hp hs ht]

/-- C8 witness: the test profile (all interaction fields set). -/
theorem claim_C8_frame_witness :
    (GenerateWithOptions (fun _ => some ()) (fun q => q) (fun _ => "") [] (.ok [1])
        testInputProfile none).2 = testInputProfile :=
  claim_C8_frame _ _ _ _ _ _ _ (by decide) (by decide) (by decide)

end HCS
